import Mathlib

/-
Verification development for the flight-booking assistant scripts.
The definitions below are a shallow embedding of the rule-based agent
(ai_agent.py) and of the pieces of the tool servers it talks to.
Python strings are modelled as List Char (ASCII fragment: the inputs the
agent handles are ASCII), JSON values as the inductive Json, machine
reals (Python floats, used only as sort keys for prices) as the
rationals, and code that can raise an exception returns Except Unit
or Option, with error / none marking the raise.
-/

namespace FlightAgent

/-! Character classes and string helpers: the ASCII fragment of the re
classes w, s, d and of str.lower / str.strip. -/

def isWordChar (c : Char) : Bool := c.isAlpha || c.isDigit || c = '_'

def pyIsSpace (c : Char) : Bool :=
  c = ' ' || c = '\t' || c = '\n' || c = '\x0d' || c = '\x0b' || c = '\x0c'

def isDigitChar (c : Char) : Bool := c.isDigit

def toLowerL (l : List Char) : List Char := l.map Char.toLower

/-- Model of Python str.strip (whitespace at both ends removed). -/
def stripWs (l : List Char) : List Char :=
  ((l.dropWhile pyIsSpace).reverse.dropWhile pyIsSpace).reverse

/-- Model of the Python substring test (sub in s). -/
def containsSub (sub : List Char) : List Char → Bool
  | [] => sub.isEmpty
  | c :: rest => sub.isPrefixOf (c :: rest) || containsSub sub rest

/-- Numeric value of a digit character. -/
def digitVal (c : Char) : Nat := c.toNat - 48

/-- Model of Python int on a non-empty string of decimal digits. -/
def natOfDigits (l : List Char) : Nat :=
  l.foldl (fun a c => 10 * a + digitVal c) 0

/-- The apostrophe character, kept out of string literals. -/
def apoChar : Char := Char.ofNat 39

/-! JSON values, the results of requests json() and of json.loads. -/

inductive Json where
  | null : Json
  | bool : Bool → Json
  | num : ℚ → Json
  | str : String → Json
  | arr : List Json → Json
  | obj : List (String × Json) → Json
deriving Repr

namespace Json

def isObj : Json → Bool
  | .obj _ => true
  | _ => false

/-- First-match lookup in the field list of an object (JSON objects
produced by json.loads have distinct keys, so first-match agrees with
Python). -/
def lookupField : List (String × Json) → String → Option Json
  | [], _ => none
  | (k, v) :: rest, key => if k = key then some v else lookupField rest key

/-- Model of Python dict.get(key): the value of the field, or None when
absent. Only ever applied after an isObj test, mirroring the call sites. -/
def get : Json → String → Json
  | .obj kvs, key => (lookupField kvs key).getD .null
  | _, _ => .null

/-- Model of Python subscription j[key]: none models the raised KeyError
(missing key) or TypeError (not a dict). -/
def subscript : Json → String → Option Json
  | .obj kvs, key => lookupField kvs key
  | _, _ => none

/-- Python truthiness of a JSON value. -/
def truthy : Json → Bool
  | .null => false
  | .bool b => b
  | .num q => q ≠ 0
  | .str s => s ≠ ""
  | .arr xs => !xs.isEmpty
  | .obj kvs => !kvs.isEmpty

end Json

/-! Model of Python float() on JSON values, used as the price sort key.
String parsing covers finite decimal literals with optional sign,
fraction and exponent; the inf / nan / underscore forms Python also
accepts never appear as prices and are omitted. -/

def ratOfDigits (l : List Char) : ℚ := (natOfDigits l : ℚ)

def parseExpPart : List Char → Option ℤ
  | [] => none
  | c :: rest =>
    let (sgn, r) : ℤ × List Char :=
      if c = '+' then (1, rest) else if c = '-' then (-1, rest) else (1, c :: rest)
    let digs := r.takeWhile isDigitChar
    let r2 := r.dropWhile isDigitChar
    if digs.isEmpty ∨ ¬r2.isEmpty then none
    else some (sgn * (natOfDigits digs : ℤ))

def pyFloatOfChars (l0 : List Char) : Option ℚ :=
  let l := stripWs l0
  let (sgn, r) : ℚ × List Char :=
    match l with
    | '+' :: rest => (1, rest)
    | '-' :: rest => (-1, rest)
    | _ => (1, l)
  let intDigs := r.takeWhile isDigitChar
  let r1 := r.dropWhile isDigitChar
  let (fracDigs, r2) : List Char × List Char :=
    match r1 with
    | '.' :: rest => (rest.takeWhile isDigitChar, rest.dropWhile isDigitChar)
    | _ => ([], r1)
  if intDigs.isEmpty ∧ fracDigs.isEmpty then none
  else
    let mantissa : ℚ := ratOfDigits intDigs + ratOfDigits fracDigs / (10 : ℚ) ^ fracDigs.length
    match r2 with
    | [] => some (sgn * mantissa)
    | 'e' :: rest => (parseExpPart rest).map fun e => sgn * mantissa * (10 : ℚ) ^ e
    | 'E' :: rest => (parseExpPart rest).map fun e => sgn * mantissa * (10 : ℚ) ^ e
    | _ => none

/-- Model of Python float(x) on a JSON value; none models the raised
TypeError / ValueError. -/
def pyFloat : Json → Option ℚ
  | .num q => some q
  | .bool b => some (if b then 1 else 0)
  | .str s => pyFloatOfChars s.data
  | _ => none

/-! Dates: datetime.date / datetime.datetime, proleptic Gregorian
calendar, years 1..9999. -/

def isLeapYear (y : Nat) : Bool := y % 4 = 0 && (y % 100 ≠ 0 || y % 400 = 0)

def daysInMonth (y m : Nat) : Nat :=
  if m = 2 then (if isLeapYear y then 29 else 28)
  else if m = 4 ∨ m = 6 ∨ m = 9 ∨ m = 11 then 30
  else 31

structure PyDate where
  year : Nat
  month : Nat
  day : Nat
deriving Repr, DecidableEq

/-- The argument checks of the datetime(year, month, day) constructor. -/
def PyDate.valid (d : PyDate) : Bool :=
  1 ≤ d.year && d.year ≤ 9999 && 1 ≤ d.month && d.month ≤ 12 &&
    1 ≤ d.day && d.day ≤ daysInMonth d.year d.month

/-- Model of datetime(year, month, day): none models the raised
ValueError. -/
def mkDate (y m d : Nat) : Option PyDate :=
  if (PyDate.mk y m d).valid then some ⟨y, m, d⟩ else none

/-- Date comparison, lexicographic on year, month, day. -/
def dateLt (a b : PyDate) : Bool :=
  a.year < b.year ∨ (a.year = b.year ∧
    (a.month < b.month ∨ (a.month = b.month ∧ a.day < b.day)))

def pad2 (n : Nat) : String := if n < 10 then "0" ++ toString n else toString n

/-- Model of strftime with format Y-m-d for years in 1000..9999 (the only
years the agent ever formats; the Y directive prints them unpadded). -/
def fmtYMD (y m d : Nat) : String :=
  toString y ++ "-" ++ pad2 m ++ "-" ++ pad2 d

/-! The regex searches of ai_agent.py, embedded as explicit left-to-right
scans with the same ordered-alternative and greedy semantics. -/

/-- One alternative of the booking-verb pattern at the current position:
the literal word is a prefix and the character after it (if any) is not a
word character. The boundary before the position is checked by the
caller. -/
def wordHereWithRightBoundary (w : List Char) (l : List Char) : Bool :=
  w.isPrefixOf l &&
    (match l.drop w.length with
     | [] => true
     | d :: _ => !isWordChar d)

/-- Scan for the word-bounded alternatives book and reserve
(ai_agent.py:48): every position is tried, tracking whether the previous
character was a word character. -/
def scanBookVerb : Bool → List Char → Bool
  | _, [] => false
  | prev, c :: rest =>
    (!prev && (wordHereWithRightBoundary "book".data (c :: rest) ||
               wordHereWithRightBoundary "reserve".data (c :: rest))) ||
    scanBookVerb (isWordChar c) rest

def hasBookVerb (l : List Char) : Bool := scanBookVerb false l

/-- Embedding of detect_intent (ai_agent.py:45-61): a booking verb
short-circuits to BOOK_FLIGHT; otherwise the stripped LLM completion is
returned verbatim. intentReply stands for the oracle completion
llm.invoke(prompt).content.strip(). -/
def detect_intent (intentReply : String) (user_input : String) : String :=
  if hasBookVerb (toLowerL user_input.data) then "BOOK_FLIGHT" else intentReply

/-- Tail of the third select alternative (book, whitespace run, digit
run, word boundary): one-plus whitespace, then a maximal one-plus digit
run whose following character (if any) is not a word character. A
shorter digit run can never restore the trailing boundary, because the
character after it would be a digit. -/
def spacesDigitsBoundary (l : List Char) : Bool :=
  let sp := l.takeWhile pyIsSpace
  let r := l.dropWhile pyIsSpace
  let digs := r.takeWhile isDigitChar
  let r2 := r.dropWhile isDigitChar
  !sp.isEmpty && !digs.isEmpty &&
    (match r2 with
     | [] => true
     | d :: _ => !isWordChar d)

/-- One position of the booking-select pattern of ai_agent.py:209, with
its three ordered alternatives: book option, book cheapest, and book
followed by whitespace and digits. -/
def selectPhraseHere (l : List Char) : Bool :=
  wordHereWithRightBoundary "book option".data l ||
  wordHereWithRightBoundary "book cheapest".data l ||
  ("book".data.isPrefixOf l && spacesDigitsBoundary (l.drop 4))

def scanSelectPhrase : Bool → List Char → Bool
  | _, [] => false
  | prev, c :: rest =>
    (!prev && selectPhraseHere (c :: rest)) || scanSelectPhrase (isWordChar c) rest

/-- Boolean result of the booking-select regex search (ai_agent.py:209). -/
def hasSelectPhrase (l : List Char) : Bool := scanSelectPhrase false l

/-- The word-bounded decline alternatives of ai_agent.py:224-227: no,
don + apostrophe + t, do not, not now, cancel, exit, stop. -/
def declineWords : List (List Char) :=
  ["no".data, "don".data ++ [apoChar] ++ "t".data, "do not".data,
   "not now".data, "cancel".data, "exit".data, "stop".data]

def declineHere (l : List Char) : Bool :=
  (declineWords.map (fun w => wordHereWithRightBoundary w l)).any id

def scanDecline : Bool → List Char → Bool
  | _, [] => false
  | prev, c :: rest =>
    (!prev && declineHere (c :: rest)) || scanDecline (isWordChar c) rest

/-- Boolean result of the decline regex search (ai_agent.py:224-227). -/
def hasDeclinePhrase (l : List Char) : Bool := scanDecline false l

/-- The option-index pattern at the current position: the literal option,
one-plus whitespace, then the maximal digit run (capture group 1). -/
def optionIdxHere (l : List Char) : Option Nat :=
  if "option".data.isPrefixOf l then
    let r := l.drop 6
    let sp := r.takeWhile pyIsSpace
    let r1 := r.dropWhile pyIsSpace
    let digs := r1.takeWhile isDigitChar
    if !sp.isEmpty && !digs.isEmpty then some (natOfDigits digs) else none
  else none

/-- Search for the option-index pattern returning int of group 1: the
leftmost matching position wins (ai_agent.py:210-211). -/
def searchOptionIdx : List Char → Option Nat
  | [] => none
  | c :: rest =>
    match optionIdxHere (c :: rest) with
    | some n => some n
    | none => searchOptionIdx rest

/-! The day-month regex of extract_search_params (ai_agent.py:119-122):
one or two digits, an optional ordinal suffix, whitespace, then a
three-letter month name, with re.search leftmost semantics and ordered,
backtracking alternatives. -/

def monthNames : List (List Char × Nat) :=
  [("jan".data, 1), ("feb".data, 2), ("mar".data, 3), ("apr".data, 4),
   ("may".data, 5), ("jun".data, 6), ("jul".data, 7), ("aug".data, 8),
   ("sep".data, 9), ("oct".data, 10), ("nov".data, 11), ("dec".data, 12)]

/-- Whitespace then a month name at the current position; the whitespace
run is maximal (month names start with a letter, so no backtracking
arises). -/
def trySpacesMonth (day : Nat) (l : List Char) : Option (Nat × Nat) :=
  let sp := l.takeWhile pyIsSpace
  let r := l.dropWhile pyIsSpace
  if sp.isEmpty then none
  else
    (monthNames.find? fun nm => nm.1.isPrefixOf r).map fun nm => (day, nm.2)

/-- The optional ordinal suffix then the month part, with the ordered
alternatives of the regex: each suffix is tried in turn, the empty
option last. -/
def trySuffixThenMonth (day : Nat) (l : List Char) : Option (Nat × Nat) :=
  (["st".data, "nd".data, "rd".data, "th".data].firstM fun sfx =>
    if sfx.isPrefixOf l then trySpacesMonth day (l.drop 2) else none) <|>
  trySpacesMonth day l

/-- The whole day-month pattern anchored at the current position: the
day group is greedy (two digits first, then one). -/
def dateMatchHere : List Char → Option (Nat × Nat)
  | a :: b :: rest =>
    if isDigitChar a && isDigitChar b then
      trySuffixThenMonth (10 * digitVal a + digitVal b) rest <|>
        trySuffixThenMonth (digitVal a) (b :: rest)
    else if isDigitChar a then trySuffixThenMonth (digitVal a) (b :: rest)
    else none
  | [_] => none
  | [] => none

/-- Leftmost search for the day-month pattern. -/
def searchDayMonth : List Char → Option (Nat × Nat)
  | [] => none
  | c :: rest =>
    match dateMatchHere (c :: rest) with
    | some dm => some dm
    | none => searchDayMonth rest

/-! Embedding of extract_search_params (ai_agent.py:65-142). -/

/-- The ordered city_map dict of the regex fallback (ai_agent.py:102-108). -/
def cityMap : List (String × String) :=
  [("mumbai", "BOM"), ("bombay", "BOM"), ("delhi", "DEL"),
   ("bengaluru", "BLR"), ("bangalore", "BLR"), ("kolkata", "CCU"),
   ("ranchi", "IXR")]

/-- The loop over city_map items (ai_agent.py:113-117): a later matching
city overwrites an earlier one, separately for origin and destination. -/
def scanCities (text : List Char) : Option String × Option String :=
  cityMap.foldl
    (fun (acc : Option String × Option String) (p : String × String) =>
      (if containsSub ("from ".data ++ p.1.data) text then some p.2 else acc.1,
       if containsSub ("to ".data ++ p.1.data) text then some p.2 else acc.2))
    (none, none)

/-- Whether the LLM structured-extraction attempt is kept: json.loads
succeeded on the completion, the result is a dict (anything else raises
AttributeError inside the try block, which is caught), and the three
required fields are truthy (ai_agent.py:94-99). -/
def llmExtractKept (parsed : Json) : Bool :=
  parsed.isObj && (parsed.get "origin").truthy &&
    (parsed.get "destination").truthy && (parsed.get "departDate").truthy

/-- Whether the LLM attempt is discarded and the regex fallback runs:
either json.loads failed (none) or the parsed value was rejected. -/
def llmDiscarded : Option Json → Bool
  | none => true
  | some p => !llmExtractKept p

/-- The regex fallback of extract_search_params (ai_agent.py:101-142).
The result error () models an uncaught exception: the ValueError of the
two datetime(year, month, day) calls, which sit outside the try block. -/
def extractFallback (today : PyDate) (user_input : String) : Except Unit Json :=
  let text := toLowerL user_input.data
  let cities := scanCities text
  match cities.1, cities.2, searchDayMonth text with
  | some origin, some destination, some dm =>
    match mkDate today.year dm.2 dm.1 with
    | none => .error ()
    | some candidate =>
      let year := if dateLt candidate today then today.year + 1 else today.year
      match mkDate year dm.2 dm.1 with
      | none => .error ()
      | some _ =>
        .ok (.obj [("origin", .str origin), ("destination", .str destination),
                   ("departDate", .str (fmtYMD year dm.2 dm.1)),
                   ("tripType", .str "ONEWAY"), ("adults", .num 1),
                   ("cabin", .str "ECONOMY")])
  | _, _, _ => .ok (.obj [])

/-- Embedding of extract_search_params (ai_agent.py:65-142). extractReply
stands for the json.loads result of the extraction completion (none when
the parse inside the try block failed). -/
def extract_search_params (today : PyDate) (extractReply : Option Json)
    (user_input : String) : Except Unit Json :=
  match extractReply with
  | some parsed =>
    if llmExtractKept parsed then .ok parsed else extractFallback today user_input
  | none => extractFallback today user_input

/-! Embedding of get_cheapest_flights (ai_agent.py:146-147): sorted by
the key float(f subscript price), truncated to the first 7. -/

/-- The sort key: none models the KeyError / TypeError / ValueError
raised inside the key function. -/
def priceKey (f : Json) : Option ℚ := (f.subscript "price").bind pyFloat

/-- Left-to-right computation of all sort keys, as CPython sorted does;
the first failing key raises. -/
def keyAll : List Json → Option (List (Json × ℚ))
  | [] => some []
  | f :: fs =>
    match priceKey f with
    | none => none
    | some q => (keyAll fs).map fun ps => (f, q) :: ps

/-- Stable insertion of a keyed element: it goes before the first element
whose key is not smaller, so elements with equal keys keep their original
relative order, exactly as with the stable CPython sort. -/
def insertByKey (x : Json × ℚ) : List (Json × ℚ) → List (Json × ℚ)
  | [] => [x]
  | y :: ys => if y.2 < x.2 then y :: insertByKey x ys else x :: y :: ys

/-- Stable insertion sort on element-key pairs. The output of a stable
sort is unique given a total key order, so this coincides with the
CPython sorted builtin. -/
def sortPairs : List (Json × ℚ) → List (Json × ℚ)
  | [] => []
  | x :: xs => insertByKey x (sortPairs xs)

/-- Embedding of get_cheapest_flights, with the limit parameter fixed at
its default 7 (the only call site uses the default). Only a JSON array
of price-keyed dicts survives; any other truthy argument makes sorted or
its key function raise. -/
def get_cheapest_flights (flights : Json) : Except Unit (List Json) :=
  match flights with
  | .arr xs =>
    match keyAll xs with
    | some pairs => .ok (((sortPairs pairs).map Prod.fst).take 7)
    | none => .error ()
  | _ => .error ()

/-! Embedding of parse_passenger_details (ai_agent.py:149-163): re.match
of word run, spaces, word run, spaces, a digit date shape, spaces, and a
traveller-class alternation, case-insensitively, on the stripped input.
The character classes for words, spaces and digits are pairwise disjoint
and each fixed-width piece admits no shorter match, so the regex matches
exactly when the maximal-munch decomposition below succeeds; the pattern
has no end anchor, so trailing input is ignored. -/

structure Passenger where
  firstName : String
  lastName : String
  dob : String
  travellerClass : String
deriving Repr, DecidableEq

/-- Case-insensitive match of an ASCII uppercase pattern letter: the
input character must be that letter or its lowercase variant. -/
def ciCharMatch (pat c : Char) : Bool := c = pat || c = pat.toLower

def ciIsPrefix : List Char → List Char → Bool
  | [], _ => true
  | _ :: _, [] => false
  | p :: ps, c :: cs => ciCharMatch p c && ciIsPrefix ps cs

/-- The date group (four digits, dash, two digits, dash, two digits): on
success, the ten matched characters and the rest of the input. -/
def dateShape : List Char → Option (List Char × List Char)
  | a :: b :: c :: d :: '-' :: e :: f :: '-' :: g :: h :: rest =>
    if isDigitChar a && isDigitChar b && isDigitChar c && isDigitChar d &&
        isDigitChar e && isDigitChar f && isDigitChar g && isDigitChar h then
      some ([a, b, c, d, '-', e, f, '-', g, h], rest)
    else none
  | _ => none

/-- The traveller-class alternation with its ordered alternatives
ECONOMY, BUSINESS, FIRST: on success the matched slice, as written in
the input. -/
def classAlt (l : List Char) : Option (List Char) :=
  if ciIsPrefix "ECONOMY".data l then some (l.take 7)
  else if ciIsPrefix "BUSINESS".data l then some (l.take 8)
  else if ciIsPrefix "FIRST".data l then some (l.take 5)
  else none

def parse_passenger_details (text : String) : Option Passenger :=
  let l := stripWs text.data
  let w1 := l.takeWhile isWordChar
  let r1 := l.dropWhile isWordChar
  let s1 := r1.takeWhile pyIsSpace
  let r2 := r1.dropWhile pyIsSpace
  let w2 := r2.takeWhile isWordChar
  let r3 := r2.dropWhile isWordChar
  let s2 := r3.takeWhile pyIsSpace
  let r4 := r3.dropWhile pyIsSpace
  if w1.isEmpty ∨ s1.isEmpty ∨ w2.isEmpty ∨ s2.isEmpty then none
  else
    match dateShape r4 with
    | none => none
    | some dr =>
      let s3 := dr.2.takeWhile pyIsSpace
      let r6 := dr.2.dropWhile pyIsSpace
      if s3.isEmpty then none
      else
        match classAlt r6 with
        | none => none
        | some cls =>
          some ⟨String.mk w1, String.mk w2, String.mk dr.1,
                String.mk (cls.map Char.toUpper)⟩

/-! The backend gateway of ai_agent.py (lines 29-41). -/

/-- Embedding of search_flights (ai_agent.py:29-34): a bare
requests.post(url, json, timeout).json() with no try block. The backend
argument maps the request params to the parsed JSON body, or to error ()
when requests raises (connection error, timeout, non-JSON body). The
function installs no handler, so an error propagates to the caller. -/
def search_flights (backend : Json → Except Unit Json) (params : Json) :
    Except Unit Json := backend params

/-- Embedding of create_oneway_booking (ai_agent.py:36-41): same shape. -/
def create_oneway_booking (backend : Json → Except Unit Json) (payload : Json) :
    Except Unit Json := backend payload

/-! The session state and the dispatch loop (ai_agent.py:21-25, 167-277). -/

structure Session where
  conversation_state : String
  last_flights : List Json
  selected_flight : Json
deriving Repr

/-- The module-level state at start-up (ai_agent.py:23-25); the Python
None in selected_flight is Json.null. -/
def initSession : Session := ⟨"IDLE", [], .null⟩

/-- The oracle replies one loop iteration can consume. extractReply is
the json.loads result of the extraction completion (none when that parse
failed). -/
structure Oracle where
  intentReply : String
  extractReply : Option Json
  chatReply : String

/-- The result of one iteration of the while True loop. A crash is an
uncaught exception escaping the loop; it records the values of the state
variables at the moment of the raise. -/
inductive Outcome where
  | exited : Outcome
  | ok : Session → Outcome
  | crash : Session → Outcome
deriving Repr

/-- The offer fields read by the search-result print (ai_agent.py:198-202);
a missing one raises KeyError inside the f-string. -/
def offerPrintable (f : Json) : Bool :=
  (["origin", "destination", "price", "currency", "offerId"].map
    (fun k => (f.subscript k).isSome)).all id

/-- The fields read by the selection print (ai_agent.py:217-220). -/
def selectedPrintable (f : Json) : Bool :=
  (["origin", "destination", "price", "currency"].map
    (fun k => (f.subscript k).isSome)).all id

/-- Python list indexing with negative-index support; none models the
raised IndexError. -/
def pyIndex (l : List Json) (i : ℤ) : Option Json :=
  if 0 ≤ i then l.get? i.toNat
  else if -i ≤ (l.length : ℤ) then l.get? (l.length - (-i).toNat)
  else none

def lowerStr (s : String) : String := String.mk (toLowerL s.data)

/-- The booking_payload dict (ai_agent.py:241-248). -/
def bookingPayload (oid dd : Json) (p : Passenger) : Json :=
  .obj [("userId", .num 1), ("offerId", oid), ("tripType", .str "ONEWAY"),
        ("departDate", dd), ("paymentMethod", .str "CARD"),
        ("passengers", .arr [.obj
          [("firstName", .str p.firstName), ("lastName", .str p.lastName),
           ("dob", .str p.dob), ("travellerClass", .str p.travellerClass)]])]

/-- The value searched for flights in the response
(ai_agent.py:186): the data field when the response is a dict, the
response itself otherwise. -/
def flightsOf (response : Json) : Json :=
  if response.isObj then response.get "data" else response

/-- The search branch (ai_agent.py:177-204). -/
def searchBranch (sb : Json → Except Unit Json) (today : PyDate)
    (extractReply : Option Json) (s : Session) (user_input : String) : Outcome :=
  match extract_search_params today extractReply user_input with
  | .error _ => .crash s
  | .ok params =>
    if !params.truthy then .ok s
    else
      match search_flights sb params with
      | .error _ => .crash s
      | .ok response =>
        if !(flightsOf response).truthy then .ok s
        else
          match get_cheapest_flights (flightsOf response) with
          | .error _ => .crash s
          | .ok cached =>
            if (cached.map offerPrintable).all id then
              .ok ⟨"SEARCH_DONE", cached, s.selected_flight⟩
            else .crash ⟨"SEARCH_DONE", cached, s.selected_flight⟩

/-- The booking-select branch (ai_agent.py:209-222); low is the lowered
user input. -/
def selectBranch (s : Session) (low : List Char) : Outcome :=
  let index : ℤ :=
    match searchOptionIdx low with
    | some n => (n : ℤ) - 1
    | none => 0
  match pyIndex s.last_flights index with
  | none => .crash s
  | some f =>
    if selectedPrintable f then
      .ok ⟨"AWAITING_PASSENGER_DETAILS", s.last_flights, f⟩
    else .crash ⟨"AWAITING_PASSENGER_DETAILS", s.last_flights, f⟩

/-- The passenger-details-and-book branch (ai_agent.py:235-261). -/
def passengerBranch (bb : Json → Except Unit Json) (s : Session)
    (user_input : String) : Outcome :=
  match parse_passenger_details user_input with
  | none => .ok s
  | some p =>
    match s.selected_flight.subscript "offerId",
        s.selected_flight.subscript "departDate" with
    | some oid, some dd =>
      match create_oneway_booking bb (bookingPayload oid dd p) with
      | .error _ => .crash s
      | .ok result =>
        if result.isObj then .ok ⟨"IDLE", [], .null⟩ else .crash s
    | _, _ => .crash s

/-- One iteration of the main loop (ai_agent.py:167-277), with the
branches in source order: exit check, search, booking-select, decline,
passenger-details, general chat. -/
def step (o : Oracle) (searchBackend bookBackend : Json → Except Unit Json)
    (today : PyDate) (s : Session) (user_input : String) : Outcome :=
  if lowerStr user_input = "exit" ∨ lowerStr user_input = "quit" then .exited
  else
    let intent := detect_intent o.intentReply user_input
    if intent = "SEARCH_FLIGHTS" ∧ s.conversation_state = "IDLE" then
      searchBranch searchBackend today o.extractReply s user_input
    else if s.conversation_state = "SEARCH_DONE" ∧
        hasSelectPhrase (toLowerL user_input.data) then
      selectBranch s (toLowerL user_input.data)
    else if s.conversation_state = "SEARCH_DONE" ∧
        hasDeclinePhrase (toLowerL user_input.data) then
      .ok ⟨"IDLE", [], .null⟩
    else if s.conversation_state = "AWAITING_PASSENGER_DETAILS" then
      passengerBranch bookBackend s user_input
    else .ok s

/-- States reachable from start-up through completed loop iterations, for
any user inputs, oracle replies and backend behaviours. -/
inductive Reachable : Session → Prop where
  | init : Reachable initSession
  | next {s s' : Session} (o : Oracle) (sb bb : Json → Except Unit Json)
      (today : PyDate) (input : String) :
      Reachable s → step o sb bb today s input = .ok s' → Reachable s'

/-! Helper lemmas about the embedding. -/

lemma subscript_isSome_isObj {f : Json} {k : String}
    (h : (f.subscript k).isSome = true) : f.isObj = true := by
  cases f <;> simp [Json.subscript, Json.isObj] at *

lemma offerPrintable_isObj {f : Json} (h : offerPrintable f = true) :
    f.isObj = true := by
  have h1 : (f.subscript "origin").isSome = true := by
    simp [offerPrintable] at h
    exact h.1
  exact subscript_isSome_isObj h1

lemma offerPrintable_selectedPrintable {f : Json} (h : offerPrintable f = true) :
    selectedPrintable f = true := by
  simp [offerPrintable] at h
  simp [selectedPrintable]
  exact ⟨h.1, h.2.1, h.2.2.1, h.2.2.2.1⟩

/-- Comparison of cached offers by their price keys. -/
def priceLe (f g : Json) : Prop :=
  ∀ qf qg, priceKey f = some qf → priceKey g = some qg → qf ≤ qg

lemma priceLe_refl (f : Json) : priceLe f f := by
  intro qf qg h1 h2
  rw [h1] at h2
  exact le_of_eq (Option.some_injective _ h2)

lemma keyAll_fst : ∀ {xs : List Json} {pairs : List (Json × ℚ)},
    keyAll xs = some pairs → pairs.map Prod.fst = xs := by
  intro xs
  induction xs with
  | nil =>
    intro pairs h
    simp [keyAll] at h
    simp [← h]
  | cons f fs ih =>
    intro pairs h
    simp only [keyAll] at h
    cases hpk : priceKey f with
    | none => rw [hpk] at h; exact absurd h (by simp)
    | some q =>
      rw [hpk] at h
      rcases Option.map_eq_some'.mp h with ⟨ps, hps, rfl⟩
      simp [ih hps]

lemma keyAll_spec : ∀ {xs : List Json} {pairs : List (Json × ℚ)},
    keyAll xs = some pairs → ∀ p ∈ pairs, priceKey p.1 = some p.2 := by
  intro xs
  induction xs with
  | nil =>
    intro pairs h
    simp [keyAll] at h
    subst h
    simp
  | cons f fs ih =>
    intro pairs h
    simp only [keyAll] at h
    cases hpk : priceKey f with
    | none => rw [hpk] at h; exact absurd h (by simp)
    | some q =>
      rw [hpk] at h
      rcases Option.map_eq_some'.mp h with ⟨ps, hps, rfl⟩
      intro p hp
      rcases List.mem_cons.mp hp with rfl | hp'
      · exact hpk
      · exact ih hps p hp'

lemma keyAll_length {xs : List Json} {pairs : List (Json × ℚ)}
    (h : keyAll xs = some pairs) : pairs.length = xs.length := by
  have := keyAll_fst h
  calc pairs.length = (pairs.map Prod.fst).length := by simp
    _ = xs.length := by rw [this]

lemma mem_insertByKey {x y : Json × ℚ} :
    ∀ {l : List (Json × ℚ)}, y ∈ insertByKey x l → y = x ∨ y ∈ l := by
  intro l
  induction l with
  | nil => simp [insertByKey]
  | cons z zs ih =>
    simp only [insertByKey]
    split
    · intro h
      rcases List.mem_cons.mp h with rfl | h'
      · exact Or.inr (List.mem_cons_self _ _)
      · rcases ih h' with rfl | h''
        · exact Or.inl rfl
        · exact Or.inr (List.mem_cons_of_mem _ h'')
    · intro h
      rcases List.mem_cons.mp h with rfl | h'
      · exact Or.inl rfl
      · exact Or.inr h'

lemma insertByKey_length {x : Json × ℚ} :
    ∀ {l : List (Json × ℚ)}, (insertByKey x l).length = l.length + 1 := by
  intro l
  induction l with
  | nil => simp [insertByKey]
  | cons z zs ih =>
    simp only [insertByKey]
    split
    · simp [ih]
    · simp

lemma insertByKey_pairwise {x : Json × ℚ} {l : List (Json × ℚ)}
    (h : l.Pairwise (fun a b => a.2 ≤ b.2)) :
    (insertByKey x l).Pairwise (fun a b => a.2 ≤ b.2) := by
  induction l with
  | nil => simp [insertByKey]
  | cons y ys ih =>
    rcases List.pairwise_cons.mp h with ⟨hy, hys⟩
    by_cases hlt : y.2 < x.2
    · simp only [insertByKey, if_pos hlt]
      refine List.pairwise_cons.mpr ⟨?_, ih hys⟩
      intro z hz
      rcases mem_insertByKey hz with rfl | hz'
      · exact le_of_lt hlt
      · exact hy z hz'
    · simp only [insertByKey, if_neg hlt]
      refine List.pairwise_cons.mpr ⟨?_, h⟩
      intro z hz
      rcases List.mem_cons.mp hz with rfl | hz'
      · exact le_of_not_lt hlt
      · exact le_trans (le_of_not_lt hlt) (hy z hz')

lemma mem_sortPairs {y : Json × ℚ} :
    ∀ {l : List (Json × ℚ)}, y ∈ sortPairs l → y ∈ l := by
  intro l
  induction l with
  | nil => simp [sortPairs]
  | cons x xs ih =>
    intro h
    rcases mem_insertByKey h with rfl | h'
    · exact List.mem_cons_self _ _
    · exact List.mem_cons_of_mem _ (ih h')

lemma sortPairs_length :
    ∀ {l : List (Json × ℚ)}, (sortPairs l).length = l.length := by
  intro l
  induction l with
  | nil => rfl
  | cons x xs ih => simp [sortPairs, insertByKey_length, ih]

lemma sortPairs_pairwise :
    ∀ {l : List (Json × ℚ)}, (sortPairs l).Pairwise (fun a b => a.2 ≤ b.2) := by
  intro l
  induction l with
  | nil => simp [sortPairs]
  | cons x xs ih => exact insertByKey_pairwise ih

lemma pyIndex_mem {l : List Json} {i : ℤ} {f : Json} (h : pyIndex l i = some f) :
    f ∈ l := by
  unfold pyIndex at h
  split at h
  · exact List.get?_mem h
  · split at h
    · exact List.get?_mem h
    · exact absurd h (by simp)

/-- What a successful search establishes about the cached list. -/
def GoodCache (l : List Json) : Prop :=
  (∀ f ∈ l, offerPrintable f = true ∧ (priceKey f).isSome = true) ∧
  l.Pairwise priceLe ∧ l ≠ []

lemma getCheapest_good {flights : Json} {cached : List Json}
    (hok : get_cheapest_flights flights = .ok cached) (ht : flights.truthy = true) :
    (∀ f ∈ cached, (priceKey f).isSome = true) ∧ cached.Pairwise priceLe ∧
      cached ≠ [] := by
  cases flights with
  | arr xs =>
    simp only [get_cheapest_flights] at hok
    cases hka : keyAll xs with
    | none => rw [hka] at hok; exact absurd hok (by simp)
    | some pairs =>
      rw [hka] at hok
      have hc : cached = ((sortPairs pairs).map Prod.fst).take 7 := by
        cases hok; rfl
      subst hc
      have hspec : ∀ p ∈ pairs, priceKey p.1 = some p.2 := keyAll_spec hka
      refine ⟨?_, ?_, ?_⟩
      · intro f hf
        rcases List.mem_map.mp (List.take_subset _ _ hf) with ⟨p, hp, rfl⟩
        rw [hspec p (mem_sortPairs hp)]
        rfl
      · have hpw2 : ((sortPairs pairs).map Prod.fst).Pairwise priceLe := by
          rw [List.pairwise_map]
          refine sortPairs_pairwise.imp_of_mem ?_
          intro a b ha hb hle qf qg h1 h2
          rw [hspec a (mem_sortPairs ha)] at h1
          rw [hspec b (mem_sortPairs hb)] at h2
          cases h1; cases h2
          exact hle
        exact hpw2.sublist (List.take_sublist _ _)
      · have hxs : xs ≠ [] := by
          simp [Json.truthy] at ht
          exact ht
        have hlen : 0 < (((sortPairs pairs).map Prod.fst).take 7).length := by
          rw [List.length_take, List.length_map, sortPairs_length,
            keyAll_length hka]
          have : 0 < xs.length := List.length_pos.mpr hxs
          omega
        exact List.ne_nil_of_length_pos hlen
  | null => exact absurd hok (by simp [get_cheapest_flights])
  | bool b => exact absurd hok (by simp [get_cheapest_flights])
  | num q => exact absurd hok (by simp [get_cheapest_flights])
  | str s => exact absurd hok (by simp [get_cheapest_flights])
  | obj kvs => exact absurd hok (by simp [get_cheapest_flights])

lemma searchBranch_ok_cases {sb : Json → Except Unit Json} {today : PyDate}
    {r : Option Json} {s : Session} {input : String} {s' : Session}
    (h : searchBranch sb today r s input = .ok s') :
    s' = s ∨ ∃ cached, GoodCache cached ∧
      s' = ⟨"SEARCH_DONE", cached, s.selected_flight⟩ := by
  unfold searchBranch at h
  cases hex : extract_search_params today r input with
  | error e => simp only [hex] at h; exact Outcome.noConfusion h
  | ok params =>
    simp only [hex] at h
    by_cases ht : params.truthy = true
    · rw [if_neg (show ¬((!params.truthy) = true) by simp [ht])] at h
      cases hresp : search_flights sb params with
      | error e => simp only [hresp] at h; exact Outcome.noConfusion h
      | ok response =>
        simp only [hresp] at h
        by_cases hft : (flightsOf response).truthy = true
        · rw [if_neg (show ¬((!(flightsOf response).truthy) = true) by
              simp [hft])] at h
          cases hch : get_cheapest_flights (flightsOf response) with
          | error e => simp only [hch] at h; exact Outcome.noConfusion h
          | ok cached =>
            simp only [hch] at h
            by_cases hpr : (cached.map offerPrintable).all id = true
            · rw [if_pos hpr] at h
              have hgood := getCheapest_good hch hft
              have hprall : ∀ f ∈ cached, offerPrintable f = true := by
                intro f hf
                have h1 := List.all_eq_true.mp hpr
                have h2 := h1 (offerPrintable f) (List.mem_map_of_mem _ hf)
                simpa using h2
              right
              refine ⟨cached, ⟨fun f hf => ⟨hprall f hf, hgood.1 f hf⟩,
                hgood.2.1, hgood.2.2⟩, ?_⟩
              cases h; rfl
            · rw [if_neg hpr] at h; exact absurd h (by simp)
        · rw [if_pos (show (!(flightsOf response).truthy) = true by
              simp [Bool.not_eq_true] at hft ⊢; exact hft)] at h
          left; cases h; rfl
    · rw [if_pos (show (!params.truthy) = true by
          simp [Bool.not_eq_true] at ht ⊢; exact ht)] at h
      left; cases h; rfl

lemma selectBranch_ok_cases {s : Session} {low : List Char} {s' : Session}
    (h : selectBranch s low = .ok s') :
    ∃ f, f ∈ s.last_flights ∧ selectedPrintable f = true ∧
      s' = ⟨"AWAITING_PASSENGER_DETAILS", s.last_flights, f⟩ := by
  simp only [selectBranch] at h
  cases hidx : pyIndex s.last_flights
      (match searchOptionIdx low with
       | some n => (n : ℤ) - 1
       | none => 0) with
  | none => simp only [hidx] at h; exact Outcome.noConfusion h
  | some f =>
    simp only [hidx] at h
    by_cases hpr : selectedPrintable f = true
    · rw [if_pos hpr] at h
      exact ⟨f, pyIndex_mem hidx, hpr, by cases h; rfl⟩
    · rw [if_neg hpr] at h; exact absurd h (by simp)

lemma passengerBranch_ok_cases {bb : Json → Except Unit Json} {s : Session}
    {input : String} {s' : Session} (h : passengerBranch bb s input = .ok s') :
    s' = s ∨ s' = ⟨"IDLE", [], .null⟩ := by
  unfold passengerBranch at h
  cases hp : parse_passenger_details input with
  | none => simp only [hp] at h; left; cases h; rfl
  | some p =>
    simp only [hp] at h
    cases hoid : s.selected_flight.subscript "offerId" with
    | none => simp only [hoid] at h; exact Outcome.noConfusion h
    | some oid =>
      simp only [hoid] at h
      cases hdd : s.selected_flight.subscript "departDate" with
      | none => simp only [hdd] at h; exact Outcome.noConfusion h
      | some dd =>
        simp only [hdd] at h
        cases hbk : create_oneway_booking bb (bookingPayload oid dd p) with
        | error e => simp only [hbk] at h; exact Outcome.noConfusion h
        | ok result =>
          simp only [hbk] at h
          by_cases hio : result.isObj = true
          · rw [if_pos hio] at h; right; cases h; rfl
          · rw [if_neg hio] at h; exact absurd h (by simp)

/-- Case analysis of one successful loop iteration: the state is
unchanged, reset to the initial shape, replaced by a fresh search result,
or moved to the passenger stage with a selection from the cache. -/
lemma step_ok_cases {o : Oracle} {sb bb : Json → Except Unit Json}
    {today : PyDate} {s : Session} {input : String} {s' : Session}
    (h : step o sb bb today s input = .ok s') :
    s' = s ∨ s' = ⟨"IDLE", [], .null⟩ ∨
    (s.conversation_state = "IDLE" ∧ ∃ cached, GoodCache cached ∧
      s' = ⟨"SEARCH_DONE", cached, s.selected_flight⟩) ∨
    (s.conversation_state = "SEARCH_DONE" ∧ ∃ f, f ∈ s.last_flights ∧
      selectedPrintable f = true ∧
      s' = ⟨"AWAITING_PASSENGER_DETAILS", s.last_flights, f⟩) := by
  simp only [step] at h
  split at h
  · exact absurd h (by simp)
  · split at h
    · rename_i hcond
      rcases searchBranch_ok_cases h with rfl | ⟨cached, hg, rfl⟩
      · exact Or.inl rfl
      · exact Or.inr (Or.inr (Or.inl ⟨hcond.2, cached, hg, rfl⟩))
    · split at h
      · rename_i hcond
        rcases selectBranch_ok_cases h with ⟨f, hf, hpr, rfl⟩
        exact Or.inr (Or.inr (Or.inr ⟨hcond.1, f, hf, hpr, rfl⟩))
      · split at h
        · right; left; cases h; rfl
        · split at h
          · rcases passengerBranch_ok_cases h with rfl | rfl
            · exact Or.inl rfl
            · exact Or.inr (Or.inl rfl)
          · left; cases h; rfl

/-- The inductive invariant of the dispatch loop. -/
def Inv (s : Session) : Prop :=
  (∀ f ∈ s.last_flights, offerPrintable f = true ∧ (priceKey f).isSome = true) ∧
  s.last_flights.Pairwise priceLe ∧
  (s.conversation_state = "SEARCH_DONE" → s.last_flights ≠ []) ∧
  (s.conversation_state = "AWAITING_PASSENGER_DETAILS" →
    s.selected_flight.isObj = true)

lemma inv_init : Inv initSession := by
  refine ⟨by simp [initSession], by simp [initSession], ?_, ?_⟩
  · intro h; exact absurd h (by decide)
  · intro h; exact absurd h (by decide)

lemma inv_step {o : Oracle} {sb bb : Json → Except Unit Json} {today : PyDate}
    {s : Session} {input : String} {s' : Session} (hInv : Inv s)
    (h : step o sb bb today s input = .ok s') : Inv s' := by
  rcases step_ok_cases h with rfl | rfl | ⟨hcs, cached, hg, rfl⟩ |
    ⟨hcs, f, hf, hp, rfl⟩
  · exact hInv
  · refine ⟨by simp, by simp, ?_, ?_⟩
    · intro habs; simp at habs
    · intro habs; simp at habs
  · refine ⟨hg.1, hg.2.1, fun _ => hg.2.2, ?_⟩
    intro habs; simp at habs
  · refine ⟨hInv.1, hInv.2.1, ?_, ?_⟩
    · intro habs; simp at habs
    · intro _
      exact offerPrintable_isObj (hInv.1 f hf).1

lemma reachable_inv {s : Session} (h : Reachable s) : Inv s := by
  induction h with
  | init => exact inv_init
  | next o sb bb today input hr hstep ih => exact inv_step ih hstep

/-! Concrete sample data for witnesses: two well-formed offers, oracles,
backend behaviours, and reachable sessions built by running the loop. -/

def offerA : Json :=
  .obj [("offerId", .str "OF1"), ("origin", .str "BOM"),
        ("destination", .str "DEL"), ("price", .num 100),
        ("currency", .str "INR"), ("departDate", .str "2025-12-05")]

def offerB : Json :=
  .obj [("offerId", .str "OF2"), ("origin", .str "BOM"),
        ("destination", .str "DEL"), ("price", .num 250),
        ("currency", .str "INR"), ("departDate", .str "2025-12-05")]

def chatOracle : Oracle := ⟨"GENERAL_CHAT", none, ""⟩

def searchOracle : Oracle := ⟨"SEARCH_FLIGHTS", none, ""⟩

/-- A backend whose request raises (connection error): requests.post
never returns a parsed body. -/
def raisingBackend : Json → Except Unit Json := fun _ => .error ()

/-- A backend answering every search with two offers, dearer one first. -/
def twoOfferBackend : Json → Except Unit Json := fun _ => .ok (.arr [offerB, offerA])

/-- A backend answering a booking with a dict that has no
bookingReference field. -/
def bookFailBackend : Json → Except Unit Json :=
  fun _ => .ok (.obj [("error", .str "NO_SEATS")])

/-- A backend answering a booking with a non-dict JSON body. -/
def listBackend : Json → Except Unit Json := fun _ => .ok (.arr [])

def d0 : PyDate := ⟨2025, 6, 15⟩

def sessionSearchDone : Session := ⟨"SEARCH_DONE", [offerA, offerB], .null⟩

def sessionAwait : Session :=
  ⟨"AWAITING_PASSENGER_DETAILS", [offerA, offerB], offerB⟩

lemma reach_searchDone : Reachable sessionSearchDone :=
  Reachable.next searchOracle twoOfferBackend raisingBackend d0
    "flights from mumbai to delhi on 5 dec" Reachable.init (by rfl)

lemma reach_await : Reachable sessionAwait :=
  Reachable.next chatOracle raisingBackend raisingBackend d0
    "book option 2" reach_searchDone (by rfl)

/-! Claim C4. -/

/-- C4: for every input text whose lowercased form contains book or
reserve as a whole word (the booking-verb regex of ai_agent.py:48
matches), detect_intent returns BOOK_FLIGHT for every possible oracle
reply, so the language oracle cannot influence the result. -/
theorem c4_book_verb_forces_book_intent (user_input intentReply : String)
    (h : hasBookVerb (toLowerL user_input.data) = true) :
    detect_intent intentReply user_input = "BOOK_FLIGHT" := by
  simp [detect_intent, h]

/-- Witness for C4 at a concrete input and oracle reply. -/
theorem c4_witness :
    detect_intent "GENERAL_CHAT" "Please book a flight to Delhi" = "BOOK_FLIGHT" :=
  c4_book_verb_forces_book_intent "Please book a flight to Delhi" "GENERAL_CHAT"
    (by decide)

/-! Claim C2. -/

/-- C2 counterexample: with a backend that raises a connection error,
search_flights of ai_agent.py does not return an inline error value; the
error propagates (first conjunct), and the dispatch loop iteration
crashes on a search from IDLE instead of completing (second and third
conjuncts). -/
theorem c2_counterexample :
    search_flights raisingBackend (.obj []) = .error () ∧
    step searchOracle raisingBackend raisingBackend d0 initSession
      "flights from mumbai to delhi on 5 dec" = .crash initSession ∧
    ∀ s', step searchOracle raisingBackend raisingBackend d0 initSession
      "flights from mumbai to delhi on 5 dec" ≠ .ok s' := by
  refine ⟨rfl, rfl, ?_⟩
  intro s' h
  rw [show step searchOracle raisingBackend raisingBackend d0 initSession
      "flights from mumbai to delhi on 5 dec" = .crash initSession from rfl] at h
  exact Outcome.noConfusion h

/-- C2 amended: when the backend raises, the raise propagates out of
search_flights and the loop iteration crashes; at the moment of the
crash no state field has changed (the crash records the unchanged
pre-state, still IDLE with its cache and selection intact). The inline
error markers described by the spec exist only in the other gateway
variants (server_mcp.py, agent_upgraded.py), not in ai_agent.py. -/
theorem c2_amended_search_raise_crashes (o : Oracle)
    (sb bb : Json → Except Unit Json) (today : PyDate) (s : Session)
    (input : String) (params : Json)
    (h1 : lowerStr input ≠ "exit") (h2 : lowerStr input ≠ "quit")
    (hintent : detect_intent o.intentReply input = "SEARCH_FLIGHTS")
    (hcs : s.conversation_state = "IDLE")
    (hex : extract_search_params today o.extractReply input = .ok params)
    (ht : params.truthy = true)
    (hraise : ∀ p, sb p = .error ()) :
    step o sb bb today s input = .crash s := by
  simp only [step]
  rw [if_neg (not_or.mpr ⟨h1, h2⟩)]
  rw [if_pos (⟨hintent, hcs⟩ : detect_intent o.intentReply input =
    "SEARCH_FLIGHTS" ∧ s.conversation_state = "IDLE")]
  simp only [searchBranch, hex]
  rw [if_neg (show ¬((!params.truthy) = true) by simp [ht])]
  simp only [search_flights, hraise]

def paramsBomCcu : Json :=
  .obj [("origin", .str "BOM"), ("destination", .str "CCU"),
        ("departDate", .str "2026-03-09"), ("tripType", .str "ONEWAY"),
        ("adults", .num 1), ("cabin", .str "ECONOMY")]

/-- Witness for the amended C2 at concrete inputs. -/
theorem c2_amended_witness :
    step searchOracle raisingBackend raisingBackend d0 initSession
      "flights from bombay to kolkata on 9 mar" = .crash initSession :=
  c2_amended_search_raise_crashes searchOracle raisingBackend raisingBackend d0
    initSession "flights from bombay to kolkata on 9 mar" paramsBomCcu
    (by decide) (by decide) rfl rfl rfl rfl (fun _ => rfl)

/-! Claim C5. -/

lemma get_truthy_subscript {j : Json} {k : String}
    (h : (j.get k).truthy = true) : (j.subscript k).isSome = true := by
  cases j with
  | obj kvs =>
    simp only [Json.get] at h
    cases hl : Json.lookupField kvs k with
    | none => rw [hl] at h; exact absurd h (by simp [Json.truthy])
    | some v => simp [Json.subscript, hl]
  | null => exact absurd h (by simp [Json.get, Json.truthy])
  | bool b => exact absurd h (by simp [Json.get, Json.truthy])
  | num q => exact absurd h (by simp [Json.get, Json.truthy])
  | str s => exact absurd h (by simp [Json.get, Json.truthy])
  | arr xs => exact absurd h (by simp [Json.get, Json.truthy])

/-- The precise condition under which the regex fallback cannot raise:
whenever origin, destination and a day-month match are all found, the
first datetime construction succeeds, and when the candidate lies before
today the rolled-over construction succeeds as well. -/
def fallbackDateOk (today : PyDate) (input : String) : Bool :=
  let text := toLowerL input.data
  let cities := scanCities text
  match cities.1, cities.2, searchDayMonth text with
  | some _, some _, some dm =>
    match mkDate today.year dm.2 dm.1 with
    | none => false
    | some c => !(dateLt c today) || (mkDate (today.year + 1) dm.2 dm.1).isSome
  | _, _, _ => true

lemma extractFallback_safe (today : PyDate) (input : String)
    (hsafe : fallbackDateOk today input = true) :
    ∃ j, extractFallback today input = .ok j ∧
      (j = .obj [] ∨ ((j.subscript "origin").isSome = true ∧
        (j.subscript "destination").isSome = true ∧
        (j.subscript "departDate").isSome = true)) := by
  simp only [fallbackDateOk] at hsafe
  simp only [extractFallback]
  cases ho : (scanCities (toLowerL input.data)).1 with
  | none =>
    simp only [ho]
    exact ⟨.obj [], rfl, Or.inl rfl⟩
  | some origin =>
    cases hd : (scanCities (toLowerL input.data)).2 with
    | none =>
      simp only [ho, hd]
      exact ⟨.obj [], rfl, Or.inl rfl⟩
    | some dest =>
      cases hdm : searchDayMonth (toLowerL input.data) with
      | none =>
        simp only [ho, hd, hdm]
        exact ⟨.obj [], rfl, Or.inl rfl⟩
      | some dm =>
        simp only [ho, hd, hdm] at hsafe ⊢
        cases hc1 : mkDate today.year dm.2 dm.1 with
        | none => rw [hc1] at hsafe; exact absurd hsafe (by simp)
        | some c =>
          simp only [hc1] at hsafe ⊢
          by_cases hlt : dateLt c today = true
          · have h2 : (mkDate (today.year + 1) dm.2 dm.1).isSome = true := by
              simpa [hlt] using hsafe
            obtain ⟨c2, hc2⟩ := Option.isSome_iff_exists.mp h2
            simp only [hlt, if_true, hc2]
            refine ⟨_, rfl, Or.inr ⟨?_, ?_, ?_⟩⟩ <;>
              simp [Json.subscript, Json.lookupField]
          · have hlt' : dateLt c today = false := by
              simpa using hlt
            simp only [hlt', Bool.false_eq_true, if_false, hc1]
            refine ⟨_, rfl, Or.inr ⟨?_, ?_, ?_⟩⟩ <;>
              simp [Json.subscript, Json.lookupField]

/-- C5 counterexample: the claim says no exception can propagate, but on
this input the fallback reaches datetime(2025, 2, 31), whose ValueError
is raised outside the try block and escapes extract_search_params. -/
theorem c5_counterexample :
    extract_search_params ⟨2025, 6, 15⟩ none
      "flights from Mumbai to Delhi on 31 feb" = .error () := rfl

/-- C5 amended: extract_search_params is total and returns either the
empty dict or a parameter object with origin, destination and departDate
all present, PROVIDED the day-month phrase of the fallback (when it is
reached and the city scan succeeds) denotes a constructible calendar
date, in both the candidate year and, on rollover, the next year.
Without that proviso the ValueError of datetime escapes, as the
counterexample shows. -/
theorem c5_amended_extract_total (today : PyDate) (parsed : Option Json)
    (input : String) (hsafe : fallbackDateOk today input = true) :
    ∃ j, extract_search_params today parsed input = .ok j ∧
      (j = .obj [] ∨ ((j.subscript "origin").isSome = true ∧
        (j.subscript "destination").isSome = true ∧
        (j.subscript "departDate").isSome = true)) := by
  unfold extract_search_params
  cases parsed with
  | none => exact extractFallback_safe today input hsafe
  | some p =>
    dsimp only
    by_cases hk : llmExtractKept p = true
    · rw [if_pos hk]
      refine ⟨p, rfl, Or.inr ?_⟩
      simp only [llmExtractKept, Bool.and_eq_true] at hk
      exact ⟨get_truthy_subscript hk.1.1.2, get_truthy_subscript hk.1.2,
        get_truthy_subscript hk.2⟩
    · rw [if_neg hk]
      exact extractFallback_safe today input hsafe

/-- Witness for the amended C5 at a concrete date and input. -/
theorem c5_amended_witness :
    ∃ j, extract_search_params ⟨2025, 6, 15⟩ none
        "flights from Mumbai to Delhi on 5 Dec" = .ok j ∧
      (j = .obj [] ∨ ((j.subscript "origin").isSome = true ∧
        (j.subscript "destination").isSome = true ∧
        (j.subscript "departDate").isSome = true)) :=
  c5_amended_extract_total ⟨2025, 6, 15⟩ none
    "flights from Mumbai to Delhi on 5 Dec" (by decide)

/-! Claims C6 and C7. -/

lemma extract_discard {parsed : Option Json} (h : llmDiscarded parsed = true)
    (today : PyDate) (input : String) :
    extract_search_params today parsed input = extractFallback today input := by
  cases parsed with
  | none => rfl
  | some p =>
    simp only [llmDiscarded] at h
    have hk : llmExtractKept p = false := by
      cases hkk : llmExtractKept p
      · rfl
      · rw [hkk] at h; exact absurd h (by simp)
    simp [extract_search_params, hk]

/-- C6: in the regex fallback, when both cities are found, the day-month
phrase resolves to a day-month pair, and the candidate date in the
current year is constructible, the resolved departDate uses year
today.year + 1 exactly when the candidate is strictly before today, and
today.year otherwise. -/
theorem c6_year_rollover (today : PyDate) (parsed : Option Json) (input : String)
    (hllm : llmDiscarded parsed = true)
    (o d : String) (hcity : scanCities (toLowerL input.data) = (some o, some d))
    (dm : Nat × Nat) (hdm : searchDayMonth (toLowerL input.data) = some dm)
    (c : PyDate) (hc : mkDate today.year dm.2 dm.1 = some c)
    (hy : (mkDate (if dateLt c today then today.year + 1 else today.year)
      dm.2 dm.1).isSome = true) :
    ∃ kvs, extract_search_params today parsed input = .ok (.obj kvs) ∧
      Json.lookupField kvs "departDate" = some (.str
        (fmtYMD (if dateLt c today then today.year + 1 else today.year)
          dm.2 dm.1)) := by
  rw [extract_discard hllm]
  simp only [extractFallback]
  have h1 : (scanCities (toLowerL input.data)).1 = some o := by rw [hcity]
  have h2 : (scanCities (toLowerL input.data)).2 = some d := by rw [hcity]
  simp only [h1, h2, hdm, hc]
  by_cases hlt : dateLt c today = true
  · rw [hlt] at hy
    simp only [if_true] at hy ⊢
    obtain ⟨c2, hc2⟩ := Option.isSome_iff_exists.mp hy
    simp only [hlt, if_true, hc2]
    exact ⟨_, rfl, by simp [Json.lookupField]⟩
  · have hlt' : dateLt c today = false := by simpa using hlt
    rw [hlt'] at hy
    simp only [Bool.false_eq_true, if_false] at hy ⊢
    simp only [hlt', Bool.false_eq_true, if_false, hc]
    exact ⟨_, rfl, by simp [Json.lookupField]⟩

/-- Witness for C6 at a concrete rollover case: today is 2025-06-15 and
the phrase 3 jan resolves to 2026-01-03. -/
theorem c6_witness :
    ∃ kvs, extract_search_params d0 none "from mumbai to delhi on 3 jan" =
        .ok (.obj kvs) ∧
      Json.lookupField kvs "departDate" = some (.str
        (fmtYMD (if dateLt ⟨2025, 1, 3⟩ d0 then 2025 + 1 else 2025) 1 3)) :=
  c6_year_rollover d0 none "from mumbai to delhi on 3 jan" rfl
    "BOM" "DEL" rfl (3, 1) rfl ⟨2025, 1, 3⟩ rfl (by decide)

lemma fmtYMD_12_5 (y : Nat) : fmtYMD y 12 5 = toString y ++ "-12-05" := by
  show toString y ++ "-" ++ pad2 12 ++ "-" ++ pad2 5 = toString y ++ "-12-05"
  have hp1 : pad2 12 = "12" := rfl
  have hp2 : pad2 5 = "05" := rfl
  rw [hp1, hp2, String.append_assoc, String.append_assoc, String.append_assoc]
  rfl

/-- C7: when the LLM attempt is discarded, extraction on the sentence
about flights from Mumbai to Delhi on 5 Dec yields origin BOM,
destination DEL, and departDate resolved-year dash 12 dash 05, the year
chosen by the next-occurrence rule. The year bounds keep both datetime
constructions inside the representable range. -/
theorem c7_mumbai_delhi_example (today : PyDate) (parsed : Option Json)
    (hllm : llmDiscarded parsed = true)
    (hy1 : 1000 ≤ today.year) (hy2 : today.year ≤ 9998) :
    extract_search_params today parsed "flights from Mumbai to Delhi on 5 Dec" =
      .ok (.obj [("origin", .str "BOM"), ("destination", .str "DEL"),
        ("departDate", .str (toString (if dateLt ⟨today.year, 12, 5⟩ today
          then today.year + 1 else today.year) ++ "-12-05")),
        ("tripType", .str "ONEWAY"), ("adults", .num 1),
        ("cabin", .str "ECONOMY")]) := by
  rw [extract_discard hllm]
  simp only [extractFallback]
  have h1 : (scanCities (toLowerL
      "flights from Mumbai to Delhi on 5 Dec".data)).1 = some "BOM" := rfl
  have h2 : (scanCities (toLowerL
      "flights from Mumbai to Delhi on 5 Dec".data)).2 = some "DEL" := rfl
  have hdm : searchDayMonth (toLowerL
      "flights from Mumbai to Delhi on 5 Dec".data) = some (5, 12) := rfl
  simp only [h1, h2, hdm]
  have hval : ∀ y, 1000 ≤ y → y ≤ 9999 → mkDate y 12 5 = some ⟨y, 12, 5⟩ := by
    intro y ha hb
    have hv : (PyDate.mk y 12 5).valid = true := by
      simp [PyDate.valid, daysInMonth]
      omega
    simp [mkDate, hv]
  have hc1 : mkDate today.year 12 5 = some ⟨today.year, 12, 5⟩ :=
    hval today.year hy1 (by omega)
  simp only [hc1]
  by_cases hlt : dateLt ⟨today.year, 12, 5⟩ today = true
  · simp only [hlt, if_true,
      hval (today.year + 1) (by omega) (by omega), fmtYMD_12_5]
  · have hlt' : dateLt ⟨today.year, 12, 5⟩ today = false := by simpa using hlt
    simp only [hlt', Bool.false_eq_true, if_false, hc1, fmtYMD_12_5]

/-- Witness for C7 at the concrete date 2025-06-15: December 5 has not
yet passed, so the resolved year is 2025. -/
theorem c7_witness :
    extract_search_params d0 none "flights from Mumbai to Delhi on 5 Dec" =
      .ok (.obj [("origin", .str "BOM"), ("destination", .str "DEL"),
        ("departDate", .str (toString (if dateLt ⟨2025, 12, 5⟩ d0
          then 2025 + 1 else 2025) ++ "-12-05")),
        ("tripType", .str "ONEWAY"), ("adults", .num 1),
        ("cabin", .str "ECONOMY")]) :=
  c7_mumbai_delhi_example d0 none rfl (by decide) (by decide)

/-! Claim C1. -/

/-- C1: in every reachable state, AWAITING_PASSENGER_DETAILS implies a
non-null selected flight, and every completed transition leaving
AWAITING_PASSENGER_DETAILS (the booking step, successful or not) clears
the selection back to null. -/
theorem c1_awaiting_has_selection (s : Session) (hre : Reachable s) :
    (s.conversation_state = "AWAITING_PASSENGER_DETAILS" →
      s.selected_flight ≠ Json.null) ∧
    (∀ (o : Oracle) (sb bb : Json → Except Unit Json) (today : PyDate)
      (input : String) (s' : Session),
      step o sb bb today s input = .ok s' →
      s.conversation_state = "AWAITING_PASSENGER_DETAILS" →
      s'.conversation_state ≠ "AWAITING_PASSENGER_DETAILS" →
      s'.selected_flight = Json.null) := by
  have hInv := reachable_inv hre
  constructor
  · intro hcs hnull
    have hobj := hInv.2.2.2 hcs
    rw [hnull] at hobj
    exact absurd hobj (by simp [Json.isObj])
  · intro o sb bb today input s' hstep hcs hcs'
    rcases step_ok_cases hstep with rfl | rfl | ⟨hidle, -⟩ | ⟨hsd, -⟩
    · exact absurd hcs hcs'
    · rfl
    · rw [hcs] at hidle; exact absurd hidle (by decide)
    · rw [hcs] at hsd; exact absurd hsd (by decide)

/-- Witness for C1 at a concrete reachable AWAITING state (built by a
search followed by a booking selection). -/
theorem c1_witness : sessionAwait.selected_flight ≠ Json.null :=
  (c1_awaiting_has_selection sessionAwait reach_await).1 rfl

/-! Claim C3. -/

/-- C3 counterexample: in AWAITING_PASSENGER_DETAILS with a valid
passenger line, a backend booking response that is a JSON array (which
certainly has no bookingReference field) makes result.get raise
AttributeError: the iteration crashes with the state NOT reset (still
AWAITING, selection intact), contradicting the for-every-response claim. -/
theorem c3_counterexample :
    step chatOracle raisingBackend listBackend d0 sessionAwait
      "John Doe 1990-01-01 ECONOMY" = .crash sessionAwait ∧
    ∀ s', step chatOracle raisingBackend listBackend d0 sessionAwait
      "John Doe 1990-01-01 ECONOMY" ≠ .ok s' := by
  refine ⟨rfl, ?_⟩
  intro s' h
  rw [show step chatOracle raisingBackend listBackend d0 sessionAwait
      "John Doe 1990-01-01 ECONOMY" = .crash sessionAwait from rfl] at h
  exact Outcome.noConfusion h

/-- C3 amended: in AWAITING_PASSENGER_DETAILS, after a valid passenger
line, for every backend response that is a JSON object - including one
with no bookingReference field - the booking branch resets the session
identically on success and failure: state IDLE, selection null, cache
empty. (A non-object response instead crashes the loop before the reset,
as the counterexample shows.) -/
theorem c3_amended_obj_response_resets (o : Oracle)
    (sb bb : Json → Except Unit Json) (today : PyDate) (s : Session)
    (input : String) (p : Passenger) (oid dd : Json) (kvs : List (String × Json))
    (h1 : lowerStr input ≠ "exit") (h2 : lowerStr input ≠ "quit")
    (hcs : s.conversation_state = "AWAITING_PASSENGER_DETAILS")
    (hp : parse_passenger_details input = some p)
    (hoid : s.selected_flight.subscript "offerId" = some oid)
    (hdd : s.selected_flight.subscript "departDate" = some dd)
    (hbk : bb (bookingPayload oid dd p) = .ok (.obj kvs)) :
    step o sb bb today s input = .ok ⟨"IDLE", [], .null⟩ := by
  simp only [step]
  rw [if_neg (not_or.mpr ⟨h1, h2⟩)]
  rw [if_neg (show ¬(detect_intent o.intentReply input = "SEARCH_FLIGHTS" ∧
      s.conversation_state = "IDLE") by
    rintro ⟨-, hc⟩; rw [hcs] at hc; exact absurd hc (by decide))]
  rw [if_neg (show ¬(s.conversation_state = "SEARCH_DONE" ∧
      hasSelectPhrase (toLowerL input.data) = true) by
    rintro ⟨hc, -⟩; rw [hcs] at hc; exact absurd hc (by decide))]
  rw [if_neg (show ¬(s.conversation_state = "SEARCH_DONE" ∧
      hasDeclinePhrase (toLowerL input.data) = true) by
    rintro ⟨hc, -⟩; rw [hcs] at hc; exact absurd hc (by decide))]
  rw [if_pos hcs]
  simp only [passengerBranch, hp, hoid, hdd, create_oneway_booking, hbk]
  rfl

/-- Witness for the amended C3: a response dict without bookingReference
still resets the session to IDLE with everything cleared. -/
theorem c3_amended_witness :
    step chatOracle raisingBackend bookFailBackend d0 sessionAwait
      "John Doe 1990-01-01 ECONOMY" = .ok ⟨"IDLE", [], .null⟩ :=
  c3_amended_obj_response_resets chatOracle raisingBackend bookFailBackend d0
    sessionAwait "John Doe 1990-01-01 ECONOMY"
    ⟨"John", "Doe", "1990-01-01", "ECONOMY"⟩ (.str "OF2") (.str "2025-12-05")
    [("error", .str "NO_SEATS")] (by decide) (by decide) rfl rfl rfl rfl rfl

/-! Claim C8. -/

/-- C8: in a reachable SEARCH_DONE state whose cache holds at least two
offers, the input book option 2 selects the second cached entry (index
1), whatever the prices of the entries, and moves the state to
AWAITING_PASSENGER_DETAILS with the cache unchanged. -/
theorem c8_book_option_two_selects_second (s : Session) (hre : Reachable s)
    (hcs : s.conversation_state = "SEARCH_DONE")
    (hlen : 2 ≤ s.last_flights.length)
    (o : Oracle) (sb bb : Json → Except Unit Json) (today : PyDate) :
    ∃ f, s.last_flights.get? 1 = some f ∧
      step o sb bb today s "book option 2" =
        .ok ⟨"AWAITING_PASSENGER_DETAILS", s.last_flights, f⟩ := by
  have hInv := reachable_inv hre
  have h1 : 1 < s.last_flights.length := by omega
  obtain ⟨f, hf⟩ : ∃ f, s.last_flights.get? 1 = some f := by
    rw [List.get?_eq_get h1]; exact ⟨_, rfl⟩
  refine ⟨f, hf, ?_⟩
  have hfmem : f ∈ s.last_flights := List.get?_mem hf
  have hsel : selectedPrintable f = true :=
    offerPrintable_selectedPrintable (hInv.1 f hfmem).1
  simp only [step]
  rw [if_neg (show ¬(lowerStr "book option 2" = "exit" ∨
      lowerStr "book option 2" = "quit") by decide)]
  rw [if_neg (show ¬(detect_intent o.intentReply "book option 2" =
      "SEARCH_FLIGHTS" ∧ s.conversation_state = "IDLE") by
    rintro ⟨hc, -⟩
    have hb : detect_intent o.intentReply "book option 2" = "BOOK_FLIGHT" := rfl
    rw [hb] at hc
    exact absurd hc (by decide))]
  rw [if_pos (⟨hcs, by decide⟩ : s.conversation_state = "SEARCH_DONE" ∧
      hasSelectPhrase (toLowerL "book option 2".data) = true)]
  simp only [selectBranch,
    show searchOptionIdx (toLowerL "book option 2".data) = some 2 from rfl]
  have hidx : pyIndex s.last_flights (((2 : ℕ) : ℤ) - 1) = some f := by
    unfold pyIndex
    rw [if_pos (by norm_num : (0 : ℤ) ≤ ((2 : ℕ) : ℤ) - 1)]
    rw [show (((2 : ℕ) : ℤ) - 1).toNat = 1 by decide]
    exact hf
  simp only [hidx]
  rw [if_pos hsel]

/-- Witness for C8 at the concrete reachable two-offer state. -/
theorem c8_witness :
    ∃ f, sessionSearchDone.last_flights.get? 1 = some f ∧
      step chatOracle raisingBackend raisingBackend d0 sessionSearchDone
        "book option 2" =
        .ok ⟨"AWAITING_PASSENGER_DETAILS", sessionSearchDone.last_flights, f⟩ :=
  c8_book_option_two_selects_second sessionSearchDone reach_searchDone rfl
    (by decide) chatOracle raisingBackend raisingBackend d0

/-! Claim C9: helper lemmas about the option-index scan on an input of
shape book option N. -/

lemma digit_not_space {c : Char} (h : isDigitChar c = true) : pyIsSpace c = false := by
  cases hs : pyIsSpace c
  · rfl
  · exfalso
    simp [pyIsSpace] at hs
    rcases hs with ((((rfl | rfl) | rfl) | rfl) | rfl) | rfl <;>
      exact absurd h (by decide)

lemma takeWhile_eq_self_of {p : Char → Bool} :
    ∀ {l : List Char}, (∀ c ∈ l, p c = true) → l.takeWhile p = l := by
  intro l
  induction l with
  | nil => intro _; rfl
  | cons c cs ih =>
    intro h
    rw [List.takeWhile_cons, if_pos (h c (List.mem_cons_self c cs))]
    rw [ih fun d hd => h d (List.mem_cons_of_mem _ hd)]

lemma takeWhile_space_digits {ds : List Char}
    (h : ∀ c ∈ ds, isDigitChar c = true) : ds.takeWhile pyIsSpace = [] := by
  cases ds with
  | nil => rfl
  | cons c cs =>
    rw [List.takeWhile_cons,
      if_neg (by simp [digit_not_space (h c (List.mem_cons_self c cs))])]

lemma dropWhile_space_digits {ds : List Char}
    (h : ∀ c ∈ ds, isDigitChar c = true) : ds.dropWhile pyIsSpace = ds := by
  cases ds with
  | nil => rfl
  | cons c cs =>
    rw [List.dropWhile_cons,
      if_neg (by simp [digit_not_space (h c (List.mem_cons_self c cs))])]

lemma optionIdxHere_option_digits {ds : List Char} (h1 : ds ≠ [])
    (h2 : ∀ c ∈ ds, isDigitChar c = true) :
    optionIdxHere ('o':: 'p':: 't':: 'i':: 'o':: 'n':: ' '::ds) =
      some (natOfDigits ds) := by
  have e1 : (('o':: 'p':: 't':: 'i':: 'o':: 'n':: ' '::ds).drop 6) = ' ' :: ds := rfl
  have e2 : (' ' :: ds).takeWhile pyIsSpace = [' '] := by
    rw [List.takeWhile_cons, if_pos (by decide), takeWhile_space_digits h2]
  have e3 : (' ' :: ds).dropWhile pyIsSpace = ds := by
    rw [List.dropWhile_cons, if_pos (by decide), dropWhile_space_digits h2]
  have e4 : ds.takeWhile isDigitChar = ds := takeWhile_eq_self_of h2
  have e5 : ds.isEmpty = false := by
    cases ds
    · exact absurd rfl h1
    · rfl
  simp only [optionIdxHere]
  rw [if_pos (show ("option".data.isPrefixOf
    ('o':: 'p':: 't':: 'i':: 'o':: 'n':: ' '::ds)) = true from rfl)]
  rw [e1]
  rw [e2, e3, e4]
  rw [if_pos (by simp [e5])]

lemma searchOptionIdx_cons_none {c : Char} {l : List Char}
    (h : optionIdxHere (c :: l) = none) :
    searchOptionIdx (c :: l) = searchOptionIdx l := by
  simp [searchOptionIdx, h]

lemma searchOptionIdx_cons_some {c : Char} {l : List Char} {n : Nat}
    (h : optionIdxHere (c :: l) = some n) :
    searchOptionIdx (c :: l) = some n := by
  simp [searchOptionIdx, h]

lemma searchOptionIdx_bookOption {ds : List Char} (h1 : ds ≠ [])
    (h2 : ∀ c ∈ ds, isDigitChar c = true) :
    searchOptionIdx ('b':: 'o':: 'o':: 'k':: ' ':: 'o':: 'p':: 't':: 'i':: 'o':: 'n':: ' '::ds)
      = some (natOfDigits ds) := by
  rw [searchOptionIdx_cons_none (show optionIdxHere
    ('b':: 'o':: 'o':: 'k':: ' ':: 'o':: 'p':: 't':: 'i':: 'o':: 'n':: ' '::ds) = none from rfl)]
  rw [searchOptionIdx_cons_none (show optionIdxHere
    ('o':: 'o':: 'k':: ' ':: 'o':: 'p':: 't':: 'i':: 'o':: 'n':: ' '::ds) = none from rfl)]
  rw [searchOptionIdx_cons_none (show optionIdxHere
    ('o':: 'k':: ' ':: 'o':: 'p':: 't':: 'i':: 'o':: 'n':: ' '::ds) = none from rfl)]
  rw [searchOptionIdx_cons_none (show optionIdxHere
    ('k':: ' ':: 'o':: 'p':: 't':: 'i':: 'o':: 'n':: ' '::ds) = none from rfl)]
  rw [searchOptionIdx_cons_none (show optionIdxHere
    (' ':: 'o':: 'p':: 't':: 'i':: 'o':: 'n':: ' '::ds) = none from rfl)]
  exact searchOptionIdx_cons_some (optionIdxHere_option_digits h1 h2)

lemma pairwise_getLast {l : List Json} (h : l.Pairwise priceLe) (hne : l ≠ []) :
    ∃ f, l.getLast? = some f ∧ ∀ g ∈ l, priceLe g f := by
  induction l with
  | nil => exact absurd rfl hne
  | cons x xs ih =>
    cases hxs : xs with
    | nil =>
      subst hxs
      refine ⟨x, rfl, ?_⟩
      intro g hg
      rw [List.mem_singleton.mp hg]
      exact priceLe_refl x
    | cons y ys =>
      subst hxs
      rcases List.pairwise_cons.mp h with ⟨hx, hys⟩
      obtain ⟨f, hf1, hf2⟩ := ih hys (by simp)
      refine ⟨f, by rw [List.getLast?_cons_cons]; exact hf1, ?_⟩
      intro g hg
      rcases List.mem_cons.mp hg with rfl | hg'
      · exact hx f (List.get?_mem (by
          rw [← List.getLast?_eq_get?]; exact hf1))
      · exact hf2 g hg'

/-- C9: on a select input of shape book option N (N given by its decimal
digits), the selection indexes the cache at N - 1 with no bounds check:
it is well-defined exactly when 1 ≤ N ≤ length of the cache (first
part); for N beyond the cache the IndexError escapes the loop as a crash
(second part); and for N = 0 the Python index -1 silently selects the
LAST cached entry, which has the maximal price key of the
price-ascending cache (third part). -/
theorem c9_option_index_unchecked (s : Session) (hre : Reachable s)
    (hcs : s.conversation_state = "SEARCH_DONE")
    (input : String) (ds : List Char)
    (hds : toLowerL input.data = "book option ".data ++ ds)
    (h1 : ds ≠ []) (h2 : ∀ c ∈ ds, isDigitChar c = true)
    (o : Oracle) (sb bb : Json → Except Unit Json) (today : PyDate) :
    (1 ≤ natOfDigits ds → natOfDigits ds ≤ s.last_flights.length →
      ∃ f, s.last_flights.get? (natOfDigits ds - 1) = some f ∧
        step o sb bb today s input =
          .ok ⟨"AWAITING_PASSENGER_DETAILS", s.last_flights, f⟩) ∧
    (s.last_flights.length < natOfDigits ds →
      step o sb bb today s input = .crash s) ∧
    (natOfDigits ds = 0 →
      ∃ f, s.last_flights.getLast? = some f ∧
        step o sb bb today s input =
          .ok ⟨"AWAITING_PASSENGER_DETAILS", s.last_flights, f⟩ ∧
        ∀ g ∈ s.last_flights, priceLe g f) := by
  have hInv := reachable_inv hre
  have hne : s.last_flights ≠ [] := hInv.2.2.1 hcs
  have hlen1 : 1 ≤ s.last_flights.length := List.length_pos.mpr hne
  have hdata : toLowerL input.data =
      'b':: 'o':: 'o':: 'k':: ' ':: 'o':: 'p':: 't':: 'i':: 'o':: 'n':: ' '::ds := by
    rw [hds]; rfl
  have hstep : step o sb bb today s input =
      selectBranch s (toLowerL input.data) := by
    simp only [step]
    rw [if_neg (show ¬(lowerStr input = "exit" ∨ lowerStr input = "quit") by
      rintro (hcon | hcon) <;>
      · have h4 := congrArg String.data hcon
        rw [show (lowerStr input).data = toLowerL input.data from rfl,
          hdata] at h4
        simp at h4)]
    rw [if_neg (show ¬(detect_intent o.intentReply input = "SEARCH_FLIGHTS" ∧
        s.conversation_state = "IDLE") by
      rintro ⟨hc, -⟩
      have hb : detect_intent o.intentReply input = "BOOK_FLIGHT" := by
        unfold detect_intent
        rw [hdata]
        rfl
      rw [hb] at hc
      exact absurd hc (by decide))]
    rw [if_pos (show s.conversation_state = "SEARCH_DONE" ∧
        hasSelectPhrase (toLowerL input.data) = true from
      ⟨hcs, by rw [hdata]; rfl⟩)]
  rw [hstep, hdata]
  simp only [selectBranch, searchOptionIdx_bookOption h1 h2]
  refine ⟨?_, ?_, ?_⟩
  · -- 1 ≤ N ≤ length: the entry at N - 1 is selected
    intro hNlo hNhi
    have hlt : natOfDigits ds - 1 < s.last_flights.length := by omega
    obtain ⟨f, hf⟩ : ∃ f, s.last_flights.get? (natOfDigits ds - 1) = some f := by
      rw [List.get?_eq_get hlt]; exact ⟨_, rfl⟩
    have hidx : pyIndex s.last_flights ((natOfDigits ds : ℤ) - 1) = some f := by
      unfold pyIndex
      rw [if_pos (by omega : (0 : ℤ) ≤ (natOfDigits ds : ℤ) - 1)]
      rw [show ((natOfDigits ds : ℤ) - 1).toNat = natOfDigits ds - 1 by omega]
      exact hf
    refine ⟨f, hf, ?_⟩
    simp only [hidx]
    rw [if_pos (offerPrintable_selectedPrintable
      (hInv.1 f (List.get?_mem hf)).1)]
  · -- N beyond the cache: IndexError, the iteration crashes
    intro hNhi
    have hidx : pyIndex s.last_flights ((natOfDigits ds : ℤ) - 1) = none := by
      unfold pyIndex
      rw [if_pos (by omega : (0 : ℤ) ≤ (natOfDigits ds : ℤ) - 1)]
      rw [show ((natOfDigits ds : ℤ) - 1).toNat = natOfDigits ds - 1 by omega]
      exact List.get?_eq_none.mpr (by omega)
    simp only [hidx]
  · -- N = 0: index -1 selects the last, maximal-price entry
    intro hN0
    obtain ⟨f, hf1, hf2⟩ := pairwise_getLast hInv.2.1 hne
    have hidx : pyIndex s.last_flights ((natOfDigits ds : ℤ) - 1) = some f := by
      unfold pyIndex
      rw [hN0]
      rw [if_neg (by norm_num : ¬(0 : ℤ) ≤ ((0 : ℕ) : ℤ) - 1)]
      rw [if_pos (by push_cast; omega : -(((0 : ℕ) : ℤ) - 1) ≤
        (s.last_flights.length : ℤ))]
      rw [show (-(((0 : ℕ) : ℤ) - 1)).toNat = 1 by decide]
      rw [← List.getLast?_eq_get?]
      exact hf1
    refine ⟨f, hf1, ?_, hf2⟩
    simp only [hidx]
    rw [if_pos (offerPrintable_selectedPrintable (hInv.1 f (List.get?_mem (by
      rw [← List.getLast?_eq_get?]; exact hf1))).1)]

/-- Witness for C9 on the concrete two-offer reachable state with input
book option 3: the index is out of range and the iteration crashes. -/
theorem c9_witness :
    step chatOracle raisingBackend raisingBackend d0 sessionSearchDone
      "book option 3" = .crash sessionSearchDone :=
  (c9_option_index_unchecked sessionSearchDone reach_searchDone rfl
    "book option 3" ['3'] rfl (by decide) (by intro c hc; fin_cases hc; decide)
    chatOracle raisingBackend raisingBackend d0).2.1 (by decide)

/-! Claim C10: characterisation of parse_passenger_details. -/

/-- The shape of the date group: exactly four digits, a dash, two
digits, a dash, two digits. -/
def isDobShape (l : List Char) : Bool :=
  match l with
  | [a, b, c, d, '-', e, f, '-', g, h] =>
    isDigitChar a && isDigitChar b && isDigitChar c && isDigitChar d &&
      isDigitChar e && isDigitChar f && isDigitChar g && isDigitChar h
  | _ => false

/-- A full case-variant of one of the three traveller-class literals. -/
def isClassLit (cls : List Char) : Bool :=
  (ciIsPrefix "ECONOMY".data cls && cls.length == 7) ||
  (ciIsPrefix "BUSINESS".data cls && cls.length == 8) ||
  (ciIsPrefix "FIRST".data cls && cls.length == 5)

/-- The inputs accepted by the passenger regex, described as a
decomposition of the stripped text: word run, spaces, word run, spaces,
date shape, spaces, a class literal, then ARBITRARY trailing text (the
pattern has no end anchor). -/
def MatchableShape (l : List Char) : Prop :=
  ∃ w1 s1 w2 s2 dob s3 cls rest : List Char,
    l = w1 ++ (s1 ++ (w2 ++ (s2 ++ (dob ++ (s3 ++ (cls ++ rest)))))) ∧
    w1 ≠ [] ∧ (∀ c ∈ w1, isWordChar c = true) ∧
    s1 ≠ [] ∧ (∀ c ∈ s1, pyIsSpace c = true) ∧
    w2 ≠ [] ∧ (∀ c ∈ w2, isWordChar c = true) ∧
    s2 ≠ [] ∧ (∀ c ∈ s2, pyIsSpace c = true) ∧
    isDobShape dob = true ∧
    s3 ≠ [] ∧ (∀ c ∈ s3, pyIsSpace c = true) ∧
    isClassLit cls = true

lemma space_not_word {c : Char} (h : pyIsSpace c = true) : isWordChar c = false := by
  simp [pyIsSpace] at h
  rcases h with ((((rfl | rfl) | rfl) | rfl) | rfl) | rfl <;> decide

lemma word_not_space {c : Char} (h : isWordChar c = true) : pyIsSpace c = false := by
  cases hs : pyIsSpace c
  · rfl
  · rw [space_not_word hs] at h
    exact absurd h (by simp)

lemma takeWhile_append_stop {p : Char → Bool} :
    ∀ (xs : List Char) (c : Char) (ys : List Char),
    (∀ a ∈ xs, p a = true) → p c = false →
    (xs ++ c :: ys).takeWhile p = xs ∧ (xs ++ c :: ys).dropWhile p = c :: ys := by
  intro xs
  induction xs with
  | nil =>
    intro c ys _ hc
    constructor
    · rw [List.nil_append, List.takeWhile_cons, if_neg (by simp [hc])]
    · rw [List.nil_append, List.dropWhile_cons, if_neg (by simp [hc])]
  | cons a as ih =>
    intro c ys hxs hc
    have ha : p a = true := hxs a (List.mem_cons_self a as)
    have ih2 := ih c ys (fun b hb => hxs b (List.mem_cons_of_mem _ hb)) hc
    constructor
    · rw [List.cons_append, List.takeWhile_cons, if_pos ha, ih2.1]
    · rw [List.cons_append, List.dropWhile_cons, if_pos ha, ih2.2]

lemma ciIsPrefix_length : ∀ {p l : List Char}, ciIsPrefix p l = true →
    p.length ≤ l.length := by
  intro p
  induction p with
  | nil => intro l _; simp
  | cons a ps ih =>
    intro l h
    cases l with
    | nil => exact absurd h (by simp [ciIsPrefix])
    | cons c cs =>
      simp only [ciIsPrefix, Bool.and_eq_true] at h
      have := ih h.2
      simp only [List.length_cons]
      omega

lemma ciIsPrefix_take : ∀ {p l : List Char}, ciIsPrefix p l = true →
    ciIsPrefix p (l.take p.length) = true := by
  intro p
  induction p with
  | nil => intro l _; rfl
  | cons a ps ih =>
    intro l h
    cases l with
    | nil => exact absurd h (by simp [ciIsPrefix])
    | cons c cs =>
      simp only [ciIsPrefix, Bool.and_eq_true] at h
      simp only [List.length_cons, List.take_succ_cons, ciIsPrefix,
        Bool.and_eq_true]
      exact ⟨h.1, ih h.2⟩

lemma ciIsPrefix_append : ∀ {p l : List Char}, ciIsPrefix p l = true →
    ∀ (x : List Char), ciIsPrefix p (l ++ x) = true := by
  intro p
  induction p with
  | nil => intro l _ x; rfl
  | cons a ps ih =>
    intro l h x
    cases l with
    | nil => exact absurd h (by simp [ciIsPrefix])
    | cons c cs =>
      simp only [ciIsPrefix, Bool.and_eq_true] at h
      simp only [List.cons_append, ciIsPrefix, Bool.and_eq_true]
      exact ⟨h.1, ih h.2 x⟩

lemma dateShape_sound {l : List Char} {dr : List Char × List Char}
    (h : dateShape l = some dr) :
    l = dr.1 ++ dr.2 ∧ isDobShape dr.1 = true := by
  unfold dateShape at h
  split at h
  · rename_i a b c d e f g hh rest
    split at h
    · rename_i hdig
      cases h
      exact ⟨rfl, by simpa [isDobShape] using hdig⟩
    · exact absurd h (by simp)
  · exact absurd h (by simp)

lemma dateShape_complete {dob : List Char} (h : isDobShape dob = true)
    (x : List Char) : dateShape (dob ++ x) = some (dob, x) := by
  unfold isDobShape at h
  split at h
  · rename_i a b c d e f g hh
    simp only [List.cons_append, List.nil_append, dateShape]
    rw [if_pos h]
  · exact absurd h (by simp)

lemma ciCharMatch_cases {a c : Char} (h : ciCharMatch a c = true) :
    c = a ∨ c = a.toLower := by
  simp only [ciCharMatch, Bool.or_eq_true, decide_eq_true_eq] at h
  exact h

lemma ciIsPrefix_head {a : Char} {ps : List Char} {c : Char} {cs : List Char}
    (h : ciIsPrefix (a :: ps) (c :: cs) = true) : ciCharMatch a c = true := by
  simp only [ciIsPrefix, Bool.and_eq_true] at h
  exact h.1

lemma classLit_head_not_space {cls : List Char} (h : isClassLit cls = true) :
    ∃ c cs, cls = c :: cs ∧ pyIsSpace c = false := by
  cases cls with
  | nil => exact absurd h (by decide)
  | cons c cs =>
    refine ⟨c, cs, rfl, ?_⟩
    simp only [isClassLit, Bool.or_eq_true, Bool.and_eq_true] at h
    rcases h with (⟨hp, -⟩ | ⟨hp, -⟩) | ⟨hp, -⟩ <;>
      rcases ciCharMatch_cases (ciIsPrefix_head hp) with rfl | rfl <;> rfl

lemma classAlt_complete {cls : List Char} (h : isClassLit cls = true)
    (x : List Char) : classAlt (cls ++ x) = some cls := by
  simp only [isClassLit, Bool.or_eq_true, Bool.and_eq_true, beq_iff_eq] at h
  rcases h with (⟨hp, hlen⟩ | ⟨hp, hlen⟩) | ⟨hp, hlen⟩
  · unfold classAlt
    rw [if_pos (ciIsPrefix_append hp x)]
    rw [show (7 : Nat) = cls.length from hlen.symm, List.take_left]
  · cases cls with
    | nil => exact absurd hlen (by simp)
    | cons c cs =>
      have hno : ciIsPrefix "ECONOMY".data (c :: (cs ++ x)) = false := by
        rcases ciCharMatch_cases (ciIsPrefix_head hp) with rfl | rfl <;> rfl
      unfold classAlt
      rw [if_neg (by simp [hno])]
      rw [if_pos (ciIsPrefix_append hp x)]
      rw [show (8 : Nat) = (c :: cs).length from hlen.symm, List.take_left]
  · cases cls with
    | nil => exact absurd hlen (by simp)
    | cons c cs =>
      have hcm := ciCharMatch_cases (ciIsPrefix_head hp)
      have hno1 : ciIsPrefix "ECONOMY".data (c :: (cs ++ x)) = false := by
        rcases hcm with rfl | rfl <;> rfl
      have hno2 : ciIsPrefix "BUSINESS".data (c :: (cs ++ x)) = false := by
        rcases hcm with rfl | rfl <;> rfl
      unfold classAlt
      rw [if_neg (by simp [hno1]), if_neg (by simp [hno2])]
      rw [if_pos (ciIsPrefix_append hp x)]
      rw [show (5 : Nat) = (c :: cs).length from hlen.symm, List.take_left]

lemma classAlt_sound {l : List Char} {cls : List Char}
    (h : classAlt l = some cls) :
    isClassLit cls = true ∧ l = cls ++ l.drop cls.length := by
  unfold classAlt at h
  by_cases h1 : ciIsPrefix "ECONOMY".data l = true
  · rw [if_pos h1] at h
    cases h
    have hlen7 : 7 ≤ l.length := ciIsPrefix_length h1
    have htk : (l.take 7).length = 7 := by rw [List.length_take]; omega
    constructor
    · simp only [isClassLit, Bool.or_eq_true, Bool.and_eq_true, beq_iff_eq]
      exact Or.inl (Or.inl ⟨ciIsPrefix_take h1, htk⟩)
    · rw [htk]
      exact (List.take_append_drop 7 l).symm
  · rw [if_neg h1] at h
    by_cases h2 : ciIsPrefix "BUSINESS".data l = true
    · rw [if_pos h2] at h
      cases h
      have hlen8 : 8 ≤ l.length := ciIsPrefix_length h2
      have htk : (l.take 8).length = 8 := by rw [List.length_take]; omega
      constructor
      · simp only [isClassLit, Bool.or_eq_true, Bool.and_eq_true, beq_iff_eq]
        exact Or.inl (Or.inr ⟨ciIsPrefix_take h2, htk⟩)
      · rw [htk]
        exact (List.take_append_drop 8 l).symm
    · rw [if_neg h2] at h
      by_cases h3 : ciIsPrefix "FIRST".data l = true
      · rw [if_pos h3] at h
        cases h
        have hlen5 : 5 ≤ l.length := ciIsPrefix_length h3
        have htk : (l.take 5).length = 5 := by rw [List.length_take]; omega
        constructor
        · simp only [isClassLit, Bool.or_eq_true, Bool.and_eq_true, beq_iff_eq]
          exact Or.inr ⟨ciIsPrefix_take h3, htk⟩
        · rw [htk]
          exact (List.take_append_drop 5 l).symm
      · rw [if_neg h3] at h
        exact absurd h (by simp)

lemma ci_full_toUpper : ∀ {lit : List Char},
    (∀ a ∈ lit, a.toUpper = a ∧ a.toLower.toUpper = a) →
    ∀ {cls : List Char}, ciIsPrefix lit cls = true → cls.length = lit.length →
    cls.map Char.toUpper = lit := by
  intro lit
  induction lit with
  | nil =>
    intro _ cls _ hlen
    rw [List.length_eq_zero.mp hlen]
    rfl
  | cons a ps ih =>
    intro hup cls h hlen
    cases cls with
    | nil => simp at hlen
    | cons c cs =>
      simp only [ciIsPrefix, Bool.and_eq_true] at h
      simp only [List.length_cons, Nat.succ.injEq] at hlen
      have hc : c.toUpper = a := by
        rcases ciCharMatch_cases h.1 with h2 | h2
        · rw [h2]; exact (hup a (List.mem_cons_self a ps)).1
        · rw [h2]; exact (hup a (List.mem_cons_self a ps)).2
      simp only [List.map_cons, hc]
      rw [ih (fun b hb => hup b (List.mem_cons_of_mem _ hb)) h.2 hlen]

lemma dob_head_digit {dob : List Char} (h : isDobShape dob = true) :
    ∃ a t, dob = a :: t ∧ isDigitChar a = true := by
  unfold isDobShape at h
  split at h
  · simp only [Bool.and_eq_true] at h
    exact ⟨_, _, rfl, h.1.1.1.1.1.1.1⟩
  · exact absurd h (by simp)

lemma ne_nil_of_isEmpty_false {l : List Char} (h : l.isEmpty = false) :
    l ≠ [] := by
  intro hn
  rw [hn] at h
  exact absurd h (by simp)

lemma isEmpty_false_of_ne_nil {l : List Char} (h : l ≠ []) :
    l.isEmpty = false := by
  cases l
  · exact absurd rfl h
  · rfl

lemma parse_some_shape {text : String} {p : Passenger}
    (hp : parse_passenger_details text = some p) :
    MatchableShape (stripWs text.data) ∧
      (p.travellerClass = "ECONOMY" ∨ p.travellerClass = "BUSINESS" ∨
        p.travellerClass = "FIRST") := by
  simp only [parse_passenger_details] at hp
  split at hp
  · exact absurd hp (by simp)
  · rename_i hcond
    simp only [not_or, Bool.not_eq_true] at hcond
    obtain ⟨he1, he2, he3, he4⟩ := hcond
    cases hds : dateShape (((((stripWs text.data).dropWhile
        isWordChar).dropWhile pyIsSpace).dropWhile isWordChar).dropWhile
        pyIsSpace) with
    | none => rw [hds] at hp; exact absurd hp (by simp)
    | some dr =>
      rw [hds] at hp
      simp only at hp
      split at hp
      · exact absurd hp (by simp)
      · rename_i hs3e
        rw [Bool.not_eq_true] at hs3e
        cases hca : classAlt (dr.2.dropWhile pyIsSpace) with
        | none => rw [hca] at hp; exact absurd hp (by simp)
        | some cls =>
          rw [hca] at hp
          simp only at hp
          cases hp
          obtain ⟨hd1, hd2⟩ := dateShape_sound hds
          obtain ⟨hcl1, hcl2⟩ := classAlt_sound hca
          constructor
          · refine ⟨(stripWs text.data).takeWhile isWordChar,
              ((stripWs text.data).dropWhile isWordChar).takeWhile pyIsSpace,
              (((stripWs text.data).dropWhile isWordChar).dropWhile
                pyIsSpace).takeWhile isWordChar,
              ((((stripWs text.data).dropWhile isWordChar).dropWhile
                pyIsSpace).dropWhile isWordChar).takeWhile pyIsSpace,
              dr.1, dr.2.takeWhile pyIsSpace, cls,
              (dr.2.dropWhile pyIsSpace).drop cls.length,
              ?_, ne_nil_of_isEmpty_false he1,
              fun c hc => List.mem_takeWhile_imp hc,
              ne_nil_of_isEmpty_false he2,
              fun c hc => List.mem_takeWhile_imp hc,
              ne_nil_of_isEmpty_false he3,
              fun c hc => List.mem_takeWhile_imp hc,
              ne_nil_of_isEmpty_false he4,
              fun c hc => List.mem_takeWhile_imp hc,
              hd2,
              ne_nil_of_isEmpty_false hs3e,
              fun c hc => List.mem_takeWhile_imp hc,
              hcl1⟩
            calc stripWs text.data
                = (stripWs text.data).takeWhile isWordChar ++
                  (stripWs text.data).dropWhile isWordChar :=
                  (List.takeWhile_append_dropWhile _ _).symm
              _ = (stripWs text.data).takeWhile isWordChar ++
                  (((stripWs text.data).dropWhile isWordChar).takeWhile
                    pyIsSpace ++
                  ((stripWs text.data).dropWhile isWordChar).dropWhile
                    pyIsSpace) := by
                  rw [List.takeWhile_append_dropWhile pyIsSpace
                    ((stripWs text.data).dropWhile isWordChar)]
              _ = (stripWs text.data).takeWhile isWordChar ++
                  (((stripWs text.data).dropWhile isWordChar).takeWhile
                    pyIsSpace ++
                  ((((stripWs text.data).dropWhile isWordChar).dropWhile
                    pyIsSpace).takeWhile isWordChar ++
                  (((stripWs text.data).dropWhile isWordChar).dropWhile
                    pyIsSpace).dropWhile isWordChar)) := by
                  rw [List.takeWhile_append_dropWhile isWordChar
                    (((stripWs text.data).dropWhile isWordChar).dropWhile
                      pyIsSpace)]
              _ = (stripWs text.data).takeWhile isWordChar ++
                  (((stripWs text.data).dropWhile isWordChar).takeWhile
                    pyIsSpace ++
                  ((((stripWs text.data).dropWhile isWordChar).dropWhile
                    pyIsSpace).takeWhile isWordChar ++
                  (((((stripWs text.data).dropWhile isWordChar).dropWhile
                    pyIsSpace).dropWhile isWordChar).takeWhile pyIsSpace ++
                  ((((stripWs text.data).dropWhile isWordChar).dropWhile
                    pyIsSpace).dropWhile isWordChar).dropWhile pyIsSpace))) := by
                  rw [List.takeWhile_append_dropWhile pyIsSpace
                    ((((stripWs text.data).dropWhile isWordChar).dropWhile
                      pyIsSpace).dropWhile isWordChar)]
              _ = (stripWs text.data).takeWhile isWordChar ++
                  (((stripWs text.data).dropWhile isWordChar).takeWhile
                    pyIsSpace ++
                  ((((stripWs text.data).dropWhile isWordChar).dropWhile
                    pyIsSpace).takeWhile isWordChar ++
                  (((((stripWs text.data).dropWhile isWordChar).dropWhile
                    pyIsSpace).dropWhile isWordChar).takeWhile pyIsSpace ++
                  (dr.1 ++ dr.2)))) := by
                  rw [← hd1]
              _ = (stripWs text.data).takeWhile isWordChar ++
                  (((stripWs text.data).dropWhile isWordChar).takeWhile
                    pyIsSpace ++
                  ((((stripWs text.data).dropWhile isWordChar).dropWhile
                    pyIsSpace).takeWhile isWordChar ++
                  (((((stripWs text.data).dropWhile isWordChar).dropWhile
                    pyIsSpace).dropWhile isWordChar).takeWhile pyIsSpace ++
                  (dr.1 ++ (dr.2.takeWhile pyIsSpace ++
                    dr.2.dropWhile pyIsSpace))))) := by
                  rw [List.takeWhile_append_dropWhile pyIsSpace dr.2]
              _ = (stripWs text.data).takeWhile isWordChar ++
                  (((stripWs text.data).dropWhile isWordChar).takeWhile
                    pyIsSpace ++
                  ((((stripWs text.data).dropWhile isWordChar).dropWhile
                    pyIsSpace).takeWhile isWordChar ++
                  (((((stripWs text.data).dropWhile isWordChar).dropWhile
                    pyIsSpace).dropWhile isWordChar).takeWhile pyIsSpace ++
                  (dr.1 ++ (dr.2.takeWhile pyIsSpace ++
                    (cls ++ (dr.2.dropWhile pyIsSpace).drop cls.length)))))) := by
                  rw [← hcl2]
          · rcases (by simpa only [isClassLit, Bool.or_eq_true,
              Bool.and_eq_true, beq_iff_eq] using hcl1 :
              (ciIsPrefix "ECONOMY".data cls = true ∧ cls.length = 7 ∨
                ciIsPrefix "BUSINESS".data cls = true ∧ cls.length = 8) ∨
              ciIsPrefix "FIRST".data cls = true ∧ cls.length = 5) with
              (⟨hpfx, hlen⟩ | ⟨hpfx, hlen⟩) | ⟨hpfx, hlen⟩
            · left
              show String.mk (cls.map Char.toUpper) = "ECONOMY"
              rw [ci_full_toUpper (by decide) hpfx hlen]
            · right; left
              show String.mk (cls.map Char.toUpper) = "BUSINESS"
              rw [ci_full_toUpper (by decide) hpfx hlen]
            · right; right
              show String.mk (cls.map Char.toUpper) = "FIRST"
              rw [ci_full_toUpper (by decide) hpfx hlen]

lemma shape_parse_some {text : String} (h : MatchableShape (stripWs text.data)) :
    (parse_passenger_details text).isSome = true := by
  obtain ⟨w1, s1, w2, s2, dob, s3, cls, rest, heq, hw1ne, hw1, hs1ne, hs1,
    hw2ne, hw2, hs2ne, hs2, hdob, hs3ne, hs3, hcls⟩ := h
  obtain ⟨c1, s1t, rfl⟩ : ∃ c t, s1 = c :: t := by
    cases s1 with
    | nil => exact absurd rfl hs1ne
    | cons c t => exact ⟨c, t, rfl⟩
  obtain ⟨c2, w2t, rfl⟩ : ∃ c t, w2 = c :: t := by
    cases w2 with
    | nil => exact absurd rfl hw2ne
    | cons c t => exact ⟨c, t, rfl⟩
  obtain ⟨c3, s2t, rfl⟩ : ∃ c t, s2 = c :: t := by
    cases s2 with
    | nil => exact absurd rfl hs2ne
    | cons c t => exact ⟨c, t, rfl⟩
  obtain ⟨a0, dobt, hdq, ha0⟩ := dob_head_digit hdob
  subst hdq
  obtain ⟨c5, s3t, rfl⟩ : ∃ c t, s3 = c :: t := by
    cases s3 with
    | nil => exact absurd rfl hs3ne
    | cons c t => exact ⟨c, t, rfl⟩
  obtain ⟨c6, clst, hcq, hc6⟩ := classLit_head_not_space hcls
  subst hcq
  have hnw1 : isWordChar c1 = false :=
    space_not_word (hs1 c1 (List.mem_cons_self _ _))
  have hns2 : pyIsSpace c2 = false :=
    word_not_space (hw2 c2 (List.mem_cons_self _ _))
  have hnw3 : isWordChar c3 = false :=
    space_not_word (hs2 c3 (List.mem_cons_self _ _))
  have hnsa : pyIsSpace a0 = false := digit_not_space ha0
  have hnw5 : isWordChar c5 = false :=
    space_not_word (hs3 c5 (List.mem_cons_self _ _))
  have a1 := takeWhile_append_stop w1 c1
    (s1t ++ ((c2 :: w2t) ++ ((c3 :: s2t) ++ ((a0 :: dobt) ++
      ((c5 :: s3t) ++ ((c6 :: clst) ++ rest)))))) hw1 hnw1
  have a3 := takeWhile_append_stop (c1 :: s1t) c2
    (w2t ++ ((c3 :: s2t) ++ ((a0 :: dobt) ++
      ((c5 :: s3t) ++ ((c6 :: clst) ++ rest))))) hs1 hns2
  have a5 := takeWhile_append_stop (c2 :: w2t) c3
    (s2t ++ ((a0 :: dobt) ++ ((c5 :: s3t) ++ ((c6 :: clst) ++ rest)))) hw2 hnw3
  have a7 := takeWhile_append_stop (c3 :: s2t) a0
    (dobt ++ ((c5 :: s3t) ++ ((c6 :: clst) ++ rest))) hs2 hnsa
  have a9 := dateShape_complete hdob ((c5 :: s3t) ++ ((c6 :: clst) ++ rest))
  have a10 := takeWhile_append_stop (c5 :: s3t) c6 (clst ++ rest) hs3 hc6
  have a12 := classAlt_complete hcls rest
  have hE1 : w1.isEmpty = false := isEmpty_false_of_ne_nil hw1ne
  simp only [parse_passenger_details, heq]
  rw [show (w1 ++ ((c1 :: s1t) ++ ((c2 :: w2t) ++ ((c3 :: s2t) ++
      ((a0 :: dobt) ++ ((c5 :: s3t) ++ ((c6 :: clst) ++ rest))))))) =
    (w1 ++ c1 :: (s1t ++ ((c2 :: w2t) ++ ((c3 :: s2t) ++ ((a0 :: dobt) ++
      ((c5 :: s3t) ++ ((c6 :: clst) ++ rest))))))) from rfl]
  rw [a1.1, a1.2]
  rw [show (c1 :: (s1t ++ ((c2 :: w2t) ++ ((c3 :: s2t) ++ ((a0 :: dobt) ++
      ((c5 :: s3t) ++ ((c6 :: clst) ++ rest))))))) =
    ((c1 :: s1t) ++ c2 :: (w2t ++ ((c3 :: s2t) ++ ((a0 :: dobt) ++
      ((c5 :: s3t) ++ ((c6 :: clst) ++ rest)))))) from rfl]
  rw [a3.1, a3.2]
  rw [show (c2 :: (w2t ++ ((c3 :: s2t) ++ ((a0 :: dobt) ++
      ((c5 :: s3t) ++ ((c6 :: clst) ++ rest)))))) =
    ((c2 :: w2t) ++ c3 :: (s2t ++ ((a0 :: dobt) ++
      ((c5 :: s3t) ++ ((c6 :: clst) ++ rest))))) from rfl]
  rw [a5.1, a5.2]
  rw [show (c3 :: (s2t ++ ((a0 :: dobt) ++
      ((c5 :: s3t) ++ ((c6 :: clst) ++ rest))))) =
    ((c3 :: s2t) ++ a0 :: (dobt ++
      ((c5 :: s3t) ++ ((c6 :: clst) ++ rest)))) from rfl]
  rw [a7.1, a7.2]
  rw [show (a0 :: (dobt ++ ((c5 :: s3t) ++ ((c6 :: clst) ++ rest)))) =
    ((a0 :: dobt) ++ ((c5 :: s3t) ++ ((c6 :: clst) ++ rest))) from rfl]
  rw [a9]
  simp only
  rw [show (((c5 :: s3t) ++ ((c6 :: clst) ++ rest)) : List Char) =
    ((c5 :: s3t) ++ c6 :: (clst ++ rest)) from rfl]
  rw [a10.1, a10.2]
  rw [show (c6 :: (clst ++ rest)) = ((c6 :: clst) ++ rest) from rfl]
  rw [a12]
  simp [hE1]

/-- C10: parse_passenger_details accepts exactly the inputs whose
stripped text decomposes as word run, spaces, word run, spaces, a
four-two-two digit date, spaces, and a case variant of ECONOMY, BUSINESS
or FIRST, followed by ARBITRARY ignored trailing text (no end anchor);
and every parsed passenger carries the traveller class upper-cased to
one of exactly ECONOMY, BUSINESS, FIRST. -/
theorem c10_passenger_parse_characterised (text : String) :
    ((parse_passenger_details text).isSome = true ↔
      MatchableShape (stripWs text.data)) ∧
    (∀ p, parse_passenger_details text = some p →
      p.travellerClass = "ECONOMY" ∨ p.travellerClass = "BUSINESS" ∨
        p.travellerClass = "FIRST") := by
  constructor
  · constructor
    · intro hsome
      obtain ⟨p, hp⟩ := Option.isSome_iff_exists.mp hsome
      exact (parse_some_shape hp).1
    · exact shape_parse_some
  · intro p hp
    exact (parse_some_shape hp).2

/-- Witness for C10: a lower-case class with trailing text is accepted
and the traveller class is canonicalised to upper case. -/
theorem c10_witness :
    parse_passenger_details "John Doe 1990-01-01 economy with extras" =
      some ⟨"John", "Doe", "1990-01-01", "ECONOMY"⟩ ∧
    (("ECONOMY" : String) = "ECONOMY" ∨ ("ECONOMY" : String) = "BUSINESS" ∨
      ("ECONOMY" : String) = "FIRST") := by
  refine ⟨rfl, ?_⟩
  exact (c10_passenger_parse_characterised
    "John Doe 1990-01-01 economy with extras").2
    ⟨"John", "Doe", "1990-01-01", "ECONOMY"⟩ rfl

end FlightAgent
